import Mathlib

set_option maxHeartbeats 1000000
set_option maxRecDepth 10000

namespace Telegram

/--
Universe of Python-style values as they occur in the Telegram datasource
(`datasources/telegram/search_telegram.py`): scalars (`int`, `str`, `float`,
`bool`), `None`, byte strings, `datetime` objects, lists, dicts (modelled as
association lists preserving insertion order), and arbitrary Python objects
carrying their class name, their class module, and their `__dict__`.
Floats only ever arise as epoch timestamps here, so they carry an `Int`.
-/
inductive TValue where
  | int (n : Int)
  | str (s : String)
  | float (x : Int)
  | bool (b : Bool)
  | none_
  | bytes (bs : List Nat)
  | date (ts : Int)
  | list (xs : List TValue)
  | dict (fields : List (String × TValue))
  | obj (tname : String) (tmodule : String) (fields : List (String × TValue))

/-- Association-list lookup, first match wins (Python dict key lookup). -/
def lookupA (fs : List (String × TValue)) (k : String) : Option TValue :=
  match fs with
  | [] => none
  | (k2, v) :: rest => if k2 = k then some v else lookupA rest k

/-- Python dict assignment `d[k] = v`: replace the value if the key exists,
otherwise append the key at the end (Python dicts preserve insertion order). -/
def setKeyA (fs : List (String × TValue)) (k : String) (v : TValue) : List (String × TValue) :=
  if fs.any (fun p => p.1 = k) then
    fs.map (fun p => if p.1 = k then (k, v) else p)
  else
    fs ++ [(k, v)]

/-- Lower-case hex digit for a nibble. -/
def hexDigit (n : Nat) : Char :=
  if n < 10 then Char.ofNat (48 + n) else Char.ofNat (87 + n)

/-- Two lower-case hex characters for one byte (`bytes.hex()` per byte). -/
def byteHexChars (b : Nat) : List Char :=
  [hexDigit (b / 16 % 16), hexDigit (b % 16)]

/-- Python `bytes.hex()`: lower-case hex string of a byte sequence. -/
def bytesHex (bs : List Nat) : String :=
  String.mk (bs.flatMap byteHexChars)

mutual

/--
`SearchTelegram.serialize_obj`, the flatten/serialization function.
Scalars (`int`, `str`, `float`, `bool`, `list` — note: a top-level list is
returned as-is) and `None` are returned unchanged; dicts are copied and objects
replaced by their `__dict__`, both then processed field by field by
`serializeFields`. A top-level `bytes` or `datetime` value has no `__dict__`,
so the Python code would raise `AttributeError`: modelled as `none`.
-/
def serialize_obj : TValue → Option TValue
  | .int n => some (.int n)
  | .str s => some (.str s)
  | .float x => some (.float x)
  | .bool b => some (.bool b)
  | .none_ => some .none_
  | .list xs => some (.list xs)
  | .bytes _ => none
  | .date _ => none
  | .dict fs => (serializeFields fs).map .dict
  | .obj _ _ fs => (serializeFields fs).map .dict

/--
The field loop of `serialize_obj`: each field is kept (possibly transformed),
dropped (`continue`), or causes a crash (propagated `none`).
-/
def serializeFields : List (String × TValue) → Option (List (String × TValue))
  | [] => some []
  | (k, v) :: rest =>
    match serializeField v with
    | none => none
    | some none => serializeFields rest
    | some (some v2) =>
      match serializeFields rest with
      | none => none
      | some rest2 => some ((k, v2) :: rest2)

/--
One field of the `serialize_obj` loop, following the source's `elif` chain:
`datetime` values become epoch floats; values from the two known telethon
modules are recursively serialized and tagged with `_type`; lists are
serialized element-wise; other telethon-module values are dropped; `bytes`
become hex strings; any remaining non-scalar non-`None` value (in particular a
nested dict — the source's own `dict` branch is unreachable behind this drop)
is dropped; scalars and `None` are kept.
Result: `none` = crash, `some none` = field dropped, `some (some v)` = kept.
-/
def serializeField : TValue → Option (Option TValue)
  | .date ts => some (some (.float ts))
  | .obj tn tm fs =>
    if tm = "telethon.tl.types" ∨ tm = "telethon.tl.custom.forward" then
      match serializeFields fs with
      | none => none
      | some fs2 => some (some (.dict (setKeyA fs2 "_type" (.str tn))))
    else
      -- both the module[0:8] == "telethon" branch and the
      -- "type we can't make sense of here" branch drop the field
      some none
  | .list xs =>
    match serializeList xs with
    | none => none
    | some ys => some (some (.list ys))
  | .bytes bs => some (some (.str (bytesHex bs)))
  | .dict _ => some none
  | .int n => some (some (.int n))
  | .str s => some (some (.str s))
  | .float x => some (some (.float x))
  | .bool b => some (some (.bool b))
  | .none_ => some (some .none_)

/-- Element-wise serialization of a list value (`[serialize_obj(item) for item in value]`). -/
def serializeList : List TValue → Option (List TValue)
  | [] => some []
  | x :: xs =>
    match serialize_obj x with
    | none => none
    | some y =>
      match serializeList xs with
      | none => none
      | some ys => some (y :: ys)

end

/-- A value that `serialize_obj` returns unchanged when applied to it directly
(the source's `scalars` tuple plus `None`): note that a top-level list is
returned as-is, whatever its elements. -/
def topScalar : TValue → Bool
  | .int _ => true
  | .str _ => true
  | .float _ => true
  | .bool _ => true
  | .none_ => true
  | .list _ => true
  | _ => false

/-- A field value kept verbatim by the `serialize_obj` field loop: a scalar,
`None`, or a list whose elements are themselves returned unchanged. -/
def simpleVal : TValue → Bool
  | .int _ => true
  | .str _ => true
  | .float _ => true
  | .bool _ => true
  | .none_ => true
  | .list xs => xs.all topScalar
  | _ => false

/-- Concrete input for the C2 counterexample: a telethon-module object with one
telethon-module sub-object, as produced by any message with e.g. a peer
reference. -/
def c2x : TValue :=
  .obj "Message" "telethon.tl.types"
    [("peer", .obj "PeerChannel" "telethon.tl.types" [("channel_id", .int 5)])]

/-! ### Session identity: `create_session_id` and the blake2b hash it uses -/

/-- 64-bit truncating addition. -/
def add64 (a b : Nat) : Nat := (a + b) % 2 ^ 64

/-- Bitwise xor (operands are kept below `2^64` throughout). -/
def xor64 (a b : Nat) : Nat := Nat.xor a b

/-- Rotate a 64-bit word right by `n` bits. -/
def ror64 (x n : Nat) : Nat := x / 2 ^ n + x % 2 ^ n * 2 ^ (64 - n)

/-- The blake2b initialization vector. -/
def blakeIV : List Nat :=
  [0x6a09e667f3bcc908, 0xbb67ae8584caa73b, 0x3c6ef372fe94f82b, 0xa54ff53a5f1d36f1,
   0x510e527fade682d1, 0x9b05688c2b3e6c1f, 0x1f83d9abfb41bd6b, 0x5be0cd19137e2179]

/-- The blake2 message schedule. -/
def blakeSigma : List (List Nat) :=
  [[0, 1, 2, 3, 4, 5, 6, 7, 8, 9, 10, 11, 12, 13, 14, 15],
   [14, 10, 4, 8, 9, 15, 13, 6, 1, 12, 0, 2, 11, 7, 5, 3],
   [11, 8, 12, 0, 5, 2, 15, 13, 10, 14, 3, 6, 7, 1, 9, 4],
   [7, 9, 3, 1, 13, 12, 11, 14, 2, 6, 5, 10, 4, 0, 15, 8],
   [9, 0, 5, 7, 2, 4, 10, 15, 14, 1, 11, 12, 6, 8, 3, 13],
   [2, 12, 6, 10, 0, 11, 8, 3, 4, 13, 7, 5, 15, 14, 1, 9],
   [12, 5, 1, 15, 14, 13, 4, 10, 0, 7, 6, 3, 9, 2, 8, 11],
   [13, 11, 7, 14, 12, 1, 3, 9, 5, 0, 15, 4, 8, 6, 2, 10],
   [6, 15, 14, 9, 11, 3, 0, 8, 12, 2, 13, 7, 1, 4, 10, 5],
   [10, 2, 8, 4, 7, 6, 1, 5, 15, 11, 9, 14, 3, 12, 13, 0]]

/-- The blake2b mixing function G on working-vector positions `ia ib ic id`
with message words `x y`. -/
def blakeG (v : List Nat) (ia ib ic id : Nat) (x y : Nat) : List Nat :=
  let a := v.getD ia 0
  let b := v.getD ib 0
  let c := v.getD ic 0
  let d := v.getD id 0
  let a := add64 (add64 a b) x
  let d := ror64 (xor64 d a) 32
  let c := add64 c d
  let b := ror64 (xor64 b c) 24
  let a := add64 (add64 a b) y
  let d := ror64 (xor64 d a) 16
  let c := add64 c d
  let b := ror64 (xor64 b c) 63
  ((((v.set ia a).set ib b).set ic c).set id d)

/-- One blake2b round with message words `m` and schedule row `s`. -/
def blakeRound (m : List Nat) (v : List Nat) (s : List Nat) : List Nat :=
  let mi := fun i => m.getD (s.getD i 0) 0
  let v := blakeG v 0 4 8 12 (mi 0) (mi 1)
  let v := blakeG v 1 5 9 13 (mi 2) (mi 3)
  let v := blakeG v 2 6 10 14 (mi 4) (mi 5)
  let v := blakeG v 3 7 11 15 (mi 6) (mi 7)
  let v := blakeG v 0 5 10 15 (mi 8) (mi 9)
  let v := blakeG v 1 6 11 12 (mi 10) (mi 11)
  let v := blakeG v 2 7 8 13 (mi 12) (mi 13)
  let v := blakeG v 3 4 9 14 (mi 14) (mi 15)
  v

/-- The blake2b compression function: state words `h`, message words `m`,
byte counter `t`, finalization flag `f`. -/
def blakeCompress (h : List Nat) (m : List Nat) (t : Nat) (f : Bool) : List Nat :=
  let v := h ++ blakeIV
  let v := v.set 12 (xor64 (v.getD 12 0) (t % 2 ^ 64))
  let v := v.set 13 (xor64 (v.getD 13 0) (t / 2 ^ 64 % 2 ^ 64))
  let v := if f then v.set 14 (xor64 (v.getD 14 0) (2 ^ 64 - 1)) else v
  let v := (List.range 12).foldl (fun v r => blakeRound m v (blakeSigma.getD (r % 10) [])) v
  (List.range 8).map fun i => xor64 (xor64 (h.getD i 0) (v.getD i 0)) (v.getD (i + 8) 0)

/-- Little-endian 64-bit word read from a byte list at offset `off`; bytes
past the end read as zero, which also provides the zero padding of the final
block. -/
def wordAt (bs : List Nat) (off : Nat) : Nat :=
  bs.getD off 0 + 2 ^ 8 * bs.getD (off + 1) 0 + 2 ^ 16 * bs.getD (off + 2) 0 +
    2 ^ 24 * bs.getD (off + 3) 0 + 2 ^ 32 * bs.getD (off + 4) 0 +
    2 ^ 40 * bs.getD (off + 5) 0 + 2 ^ 48 * bs.getD (off + 6) 0 +
    2 ^ 56 * bs.getD (off + 7) 0

/-- The sixteen message words of one 128-byte block. -/
def wordsOfBlock (bs : List Nat) : List Nat :=
  (List.range 16).map fun i => wordAt bs (8 * i)

/-- Process the message blocks of an unkeyed blake2b computation: all blocks
but the last are compressed with the running byte counter; the final (possibly
empty, zero-padded) block is compressed with the total length and the
finalization flag. Structural recursion on a fuel counter (one unit per block;
`blakeBlocks` supplies one unit per byte, which is ample) so the function
reduces definitionally; the fuel never runs out on the supplied value. -/
def blakeBlocksFuel : Nat → List Nat → List Nat → Nat → List Nat
  | 0, h, rest, passed =>
    blakeCompress h (wordsOfBlock rest) (passed + rest.length) true
  | fuel + 1, h, rest, passed =>
    if rest.length ≤ 128 then
      blakeCompress h (wordsOfBlock rest) (passed + rest.length) true
    else
      blakeBlocksFuel fuel
        (blakeCompress h (wordsOfBlock (rest.take 128)) (passed + 128) false)
        (rest.drop 128) (passed + 128)

/-- Block loop of blake2b, starting from state `h` with `passed` bytes already
counted. -/
def blakeBlocks (h : List Nat) (rest : List Nat) (passed : Nat) : List Nat :=
  blakeBlocksFuel rest.length h rest passed

/-- Little-endian bytes of one 64-bit state word. -/
def wordLEBytes (w : Nat) : List Nat :=
  [w % 2 ^ 8, w / 2 ^ 8 % 2 ^ 8, w / 2 ^ 16 % 2 ^ 8, w / 2 ^ 24 % 2 ^ 8,
   w / 2 ^ 32 % 2 ^ 8, w / 2 ^ 40 % 2 ^ 8, w / 2 ^ 48 % 2 ^ 8, w / 2 ^ 56 % 2 ^ 8]

/-- Unkeyed blake2b-512 of a byte sequence, as a 64-byte digest
(`hashlib.blake2b(...).digest()`). -/
def blake2b (msg : List Nat) : List Nat :=
  let h0 := (blakeIV.set 0 (xor64 (blakeIV.getD 0 0) 0x01010040))
  (blakeBlocks h0 msg 0).flatMap wordLEBytes

/-- Python `str.encode("ascii")` for the ASCII strings used here. -/
def asciiBytes (s : String) : List Nat := s.data.map Char.toNat

/-- Python `str.strip()` whitespace set. -/
def isPySpace (c : Char) : Bool :=
  c = ' ' || c = '\t' || c = '\n' || c = '\x0d' || c = '\x0b' || c = '\x0c'

/-- Python `str.strip()`. -/
def pyStrip (s : String) : String :=
  String.mk (((s.data.dropWhile isPySpace).reverse.dropWhile isPySpace).reverse)

/-- Python `str.replace("+", "")`: removes every plus sign. -/
def removePlus (s : String) : String :=
  String.mk (s.data.filter fun c => c ≠ '+')

/--
`SearchTelegram.create_session_id`: `api_phone.strip().replace("+", "") +
str(api_id).strip() + api_hash.strip()`, hashed with `hashlib.blake2b` and
returned as the hex digest. Both call sites pass `api_id` as the string taken
from the query parameters, so `str(api_id)` is the identity and the argument
is modelled as a string.
-/
def create_session_id (api_phone : String) (api_id : String) (api_hash : String) : String :=
  let hash_base := removePlus (pyStrip api_phone) ++ pyStrip api_id ++ pyStrip api_hash
  bytesHex (blake2b (asciiBytes hash_base))

/-- The raw phone number in the sense of claim C5: the phone string with
leading `+` and whitespace stripped (the code in fact removes every `+`). -/
def rawPhone (api_phone : String) : String := removePlus (pyStrip api_phone)

/-- The session-code selection of `validate_query` when the user already has
other telegram jobs running: prefer the user's stored `temp_session_code`,
else the first unused code from the comma-separated `tg_codes` value, else a
freshly generated 4-character code (`uuid.uuid4().hex[0:4]`, modelled as a
parameter since it is drawn from a random source). `none` models an unset or
empty stored value, which is falsy in the source's `if` tests. -/
def choose_session_code (tempCode : Option String) (oldCodes : Option String)
    (freshCode : String) : String :=
  match tempCode with
  | some c => c
  | none =>
    match oldCodes with
    | some codes => (codes.splitOn ",").headD ""
    | none => freshCode

/-- The session identity chosen by `validate_query` together with the query
parameters it returns that matter to claim C4: when other telegram jobs are in
flight the base hash is suffixed with the chosen disambiguation code, and that
code is stored in the returned parameters under the key `"session-code"`
(otherwise `session_code` stays `None`). -/
def validate_query_session (base : String) (telegramJobs : Nat)
    (tempCode oldCodes : Option String) (freshCode : String) :
    String × List (String × TValue) :=
  if telegramJobs > 0 then
    let code := choose_session_code tempCode oldCodes freshCode
    (base ++ code, [("session-code", .str code)])
  else
    (base, [("session-code", .none_)])

/-- The session identity computed at collection time by `execute_queries`:
`session_code = query.get("sesson-code", None)` — note the source reads the
key `"sesson-code"`, not `"session-code"` — and the suffix is appended only
when that value is truthy. -/
def execute_queries_session_id (query : List (String × TValue))
    (api_phone api_id api_hash : String) : String :=
  let session_id := create_session_id api_phone api_id api_hash
  match lookupA query "sesson-code" with
  | some (.str c) => if c = "" then session_id else session_id ++ c
  | _ => session_id

/-- `as` begins with `needle`. -/
def leadsWith : List Char → List Char → Bool
  | [], _ => true
  | _ :: _, [] => false
  | a :: as, b :: bs => a = b && leadsWith as bs

/-- `needle` occurs as a contiguous sublist of the second argument. -/
def hasSubList (needle : List Char) : List Char → Bool
  | [] => leadsWith needle []
  | c :: cs => leadsWith needle (c :: cs) || hasSubList needle cs

/-- Substring containment on strings (Python `needle in hay`). -/
def strContainsSub (hay needle : String) : Bool := hasSubList needle.data hay.data

/-! ### The entity collection loop of `gather_posts` -/

/-- Break if Telegram requires a wait time above this number of seconds
(`end_if_rate_limited = 600` on the class). -/
def end_if_rate_limited : Nat := 600

/-- A message as the entity loop sees it after serialization: the serialized
`date` field (epoch seconds) and whether the item is an action (a non-message
event such as a user joining). -/
structure Msg where
  date : Nat
  isAction : Bool
deriving DecidableEq, Repr

/-- How one pass of `client.iter_messages` over an entity ends: normal
exhaustion, or one of the error kinds `gather_posts` handles being raised by
the iteration. -/
inductive AttemptEnd where
  | done
  | floodWait (seconds : Nat)
  | timeout
  | channelPrivate
  | usernameInvalid
  | badRequest
  | valueError
deriving DecidableEq, Repr

/-- One pass of the upstream iterator for an entity: the messages it delivers
in order, then how it ends. A script (list of attempts) fixes the upstream
behaviour across the retries of the `while True` loop. -/
structure Attempt where
  msgs : List Msg
  ending : AttemptEnd
deriving DecidableEq, Repr

/-- State threaded through `gather_posts`: the run-level `flawless` flag, the
`no_additional_queries` rate-limit flag, the per-entity timeout bookkeeping
(`retries`, `delay`) and the messages yielded so far. -/
structure LoopState where
  flawless : Bool
  no_additional_queries : Bool
  retries : Nat
  delay : Nat
  yielded : List Msg
deriving DecidableEq, Repr

/-- The initial state of a collection run. -/
def initLoopState : LoopState :=
  { flawless := true, no_additional_queries := false, retries := 0, delay := 10, yielded := [] }

/-- The `min_date and serialized_message.get("date") < min_date` test: `none`
models an unset `min_date`; a set value of `0` is falsy in Python, but `date <
0` is also never true, so the two checks agree on natural-number dates. -/
def belowMinDate (min_date : Option Nat) (date : Nat) : Bool :=
  match min_date with
  | some d => decide (date < d)
  | none => false

/-- The body of the `async for message in client.iter_messages(...)` loop:
per item, skip it if it is an action and actions are not included; stop (with
`break`, before yielding) as soon as the serialized date falls below a truthy
`min_date`; otherwise yield it and stop after it once `entity_posts` reaches
`max_items`. `entity_posts` counts every iterated item, including skipped
actions, exactly as in the source. Returns the messages yielded during this
pass and whether the loop was left by `break` before the iterator finished. -/
def consumeMsgs (max_items : Nat) (min_date : Option Nat) (include_actions : Bool)
    (entity_posts : Nat) : List Msg → List Msg × Bool
  | [] => ([], false)
  | m :: ms =>
    let entity_posts := entity_posts + 1
    if !include_actions && m.isAction then
      consumeMsgs max_items min_date include_actions entity_posts ms
    else if belowMinDate min_date m.date then
      ([], true)
    else if max_items ≤ entity_posts then
      ([m], true)
    else
      let r := consumeMsgs max_items min_date include_actions entity_posts ms
      (m :: r.1, r.2)

/-- The `while True` retry loop of `gather_posts` for one entity, fed by a
script of iterator passes. An early `break` inside the `async for` (min-date
or max-items stop) leaves the `while` loop; otherwise the ending is handled by
the source's `except` chain: private/invalid/bad-request/value errors mark the
run not flawless and skip the entity; a rate limit below the ceiling sleeps
and continues with the next pass; a rate limit at or above the ceiling marks
not flawless, sets `no_additional_queries` and stops; a timeout with
`retries < 3` marks not flawless and skips (the source never increments
`retries`, so its backoff branch is unreachable from the initial state, and is
reproduced faithfully here). -/
def run_entity (max_items : Nat) (min_date : Option Nat) (include_actions : Bool)
    (st : LoopState) : List Attempt → LoopState
  | [] => st
  | a :: rest =>
    let r := consumeMsgs max_items min_date include_actions 0 a.msgs
    let st2 := { st with yielded := st.yielded ++ r.1 }
    if r.2 then st2
    else
      match a.ending with
      | .done => st2
      | .channelPrivate => { st2 with flawless := false }
      | .usernameInvalid => { st2 with flawless := false }
      | .badRequest => { st2 with flawless := false }
      | .valueError => { st2 with flawless := false }
      | .floodWait w =>
        if w < end_if_rate_limited then
          run_entity max_items min_date include_actions st2 rest
        else
          { st2 with flawless := false, no_additional_queries := true }
      | .timeout =>
        if st2.retries < 3 then
          { st2 with flawless := false }
        else
          run_entity max_items min_date include_actions { st2 with delay := st2.delay * 2 } rest

/-- The outer entity loop of `gather_posts`: entities are processed in order;
once `no_additional_queries` is set by an over-ceiling rate limit, every
remaining entity is skipped (`continue`) without fetching anything. Per
entity, `delay` and `retries` are re-initialized as at the top of the source's
`for` loop. -/
def gather_posts (max_items : Nat) (min_date : Option Nat) (include_actions : Bool) :
    List (List Attempt) → LoopState → LoopState
  | [], st => st
  | script :: rest, st =>
    if st.no_additional_queries then
      gather_posts max_items min_date include_actions rest st
    else
      gather_posts max_items min_date include_actions rest
        (run_entity max_items min_date include_actions
          { st with retries := 0, delay := 10 } script)

/-! ### The message normalizer: `map_item` and its helpers -/

/-- Python truthiness (`bool(v)`). -/
def truthy : TValue → Bool
  | .int n => n ≠ 0
  | .str s => s ≠ ""
  | .float x => x ≠ 0
  | .bool b => b
  | .none_ => false
  | .bytes bs => bs ≠ []
  | .date _ => true
  | .list xs => !xs.isEmpty
  | .dict fs => !fs.isEmpty
  | .obj _ _ _ => true

/-- Dict subscript `m[k]` on known dict fields: `KeyError` when absent. -/
def dictGet (m : List (String × TValue)) (k : String) : Except String TValue :=
  match lookupA m k with
  | some v => pure v
  | none => throw ("KeyError: " ++ k)

/-- Python subscript `v[k]` with a string key: `KeyError` on a dict missing
the key, `TypeError` on values that are not string-subscriptable. -/
def getItem (v : TValue) (k : String) : Except String TValue :=
  match v with
  | .dict fs => dictGet fs k
  | _ => throw ("TypeError: value is not subscriptable by " ++ k)

/-- Python `v.get(k, default)`: only dicts have `.get` (`AttributeError`
otherwise). -/
def pyGet (v : TValue) (k : String) (dflt : TValue) : Except String TValue :=
  match v with
  | .dict fs => pure ((lookupA fs k).getD dflt)
  | _ => throw "AttributeError: object has no attribute get"

/-- `m.get(k, default)` on known dict fields. -/
def pyGetD (m : List (String × TValue)) (k : String) (dflt : TValue) : TValue :=
  (lookupA m k).getD dflt

/-- Python `k in v` for a string `k`: key test on dicts, substring test on
strings, `TypeError` otherwise. -/
def pyIn (k : String) (v : TValue) : Except String Bool :=
  match v with
  | .dict fs => pure (lookupA fs k).isSome
  | .str s => pure (strContainsSub s k)
  | _ => throw "TypeError: argument is not a container"

/-- Numeric value of a Python number (`bool` counts as 0/1). -/
def pyNumVal : TValue → Option Int
  | .int n => some n
  | .float x => some x
  | .bool b => some (if b then 1 else 0)
  | _ => none

/-- Python `==` for the hashable values used as dict keys and in the
forwarded-chat comparison: cross-type numeric equality, string/bytes/None
equality; default objects compare by identity and are modelled as unequal. -/
def pyEqKey (a b : TValue) : Bool :=
  match pyNumVal a, pyNumVal b with
  | some x, some y => x = y
  | _, _ =>
    match a, b with
    | .str s, .str t => s = t
    | .none_, .none_ => true
    | .bytes xs, .bytes ys => xs = ys
    | .date x, .date y => x = y
    | _, _ => false

/-- Decimal integer literal parser for Python `int(str)`. -/
def parseIntStr (s : String) : Option Int :=
  let t := (pyStrip s).data
  let signAndDigits : Int × List Char :=
    match t with
    | '-' :: rest => (-1, rest)
    | '+' :: rest => (1, rest)
    | _ => (1, t)
  match signAndDigits with
  | (sign, ds) =>
    if ds ≠ [] ∧ ds.all Char.isDigit then
      some (sign * Int.ofNat (ds.foldl (fun acc c => acc * 10 + (c.toNat - 48)) 0))
    else
      none

/-- Python `int(v)`: ints, floats (truncating — floats carry an `Int` here),
bools and decimal strings convert; everything else raises. -/
def pyInt (v : TValue) : Except String Int :=
  match v with
  | .int n => pure n
  | .float x => pure x
  | .bool b => pure (if b then 1 else 0)
  | .str s =>
    match parseIntStr s with
    | some n => pure n
    | none => throw "ValueError: invalid literal for int"
  | _ => throw "TypeError: int() argument must be a number"

/-- Numeric coercion of `datetime.fromtimestamp`: accepts ints and floats
(and bools, which are ints in Python); raises on everything else. -/
def pyNum (v : TValue) : Except String Int :=
  match v with
  | .int n => pure n
  | .float x => pure x
  | .bool b => pure (if b then 1 else 0)
  | _ => throw "TypeError: an integer is required"

/-- Python `str(v)` for the scalar values that reach it here. -/
def pyStrOf : TValue → String
  | .int n => toString n
  | .str s => s
  | .float x => toString x ++ ".0"
  | .bool b => if b then "True" else "False"
  | .none_ => "None"
  | _ => "<object>"

/-- `re.sub(r"\s", "", s)`: drop every whitespace character. -/
def removeWs (s : String) : String :=
  String.mk (s.data.filter fun c => !isPySpace c)

/-- Zero-padded decimal rendering of a field of a formatted timestamp. -/
def pad2 (n : Int) : String :=
  if n < 10 then "0" ++ toString n else toString n

/-- `datetime.fromtimestamp(ts).strftime("%Y-%m-%d %H:%M:%S")`, in UTC (the
source formats in the server's local timezone; the calendar arithmetic is the
standard civil-from-days algorithm). -/
def fmtTimestamp (ts : Int) : String :=
  let days := Int.ediv ts 86400
  let secs := Int.emod ts 86400
  let hh := Int.ediv secs 3600
  let mm := Int.emod (Int.ediv secs 60) 60
  let ss := Int.emod secs 60
  let z := days + 719468
  let era := Int.ediv z 146097
  let doe := z - era * 146097
  let yoe := Int.ediv (doe - Int.ediv doe 1460 + Int.ediv doe 36524 - Int.ediv doe 146096) 365
  let y0 := yoe + era * 400
  let doy := doe - (365 * yoe + Int.ediv yoe 4 - Int.ediv yoe 100)
  let mp := Int.ediv (5 * doy + 2) 153
  let d := doy - Int.ediv (153 * mp + 2) 5 + 1
  let mth := mp + (if mp < 10 then 3 else -9)
  let y := y0 + (if mth ≤ 2 then 1 else 0)
  toString y ++ "-" ++ pad2 mth ++ "-" ++ pad2 d ++ " " ++
    pad2 hh ++ ":" ++ pad2 mm ++ ":" ++ pad2 ss

/-- JSON string escaping (quotes and backslashes; the inputs used here contain
no control characters). -/
def jsonEscape (s : String) : String :=
  String.mk (s.data.flatMap fun c =>
    if c = '"' then ['\\', '"']
    else if c = '\\' then ['\\', '\\']
    else [c])

mutual

/-- `json.dumps` rendering of one value; Python raises `TypeError` on
non-serializable objects. -/
def jsonValue : TValue → Except String String
  | .str s => pure ("\"" ++ jsonEscape s ++ "\"")
  | .int n => pure (toString n)
  | .float x => pure (toString x ++ ".0")
  | .bool b => pure (if b then "true" else "false")
  | .none_ => pure "null"
  | .list xs => do
    let ys ← jsonList xs
    pure ("[" ++ String.intercalate ", " ys ++ "]")
  | .dict fs => do
    let ys ← jsonPairs fs
    pure ("\x7b" ++ String.intercalate ", " ys ++ "\x7d")
  | .bytes _ => throw "TypeError: not JSON serializable"
  | .date _ => throw "TypeError: not JSON serializable"
  | .obj _ _ _ => throw "TypeError: not JSON serializable"

/-- Elementwise JSON rendering of a list value. -/
def jsonList : List TValue → Except String (List String)
  | [] => pure []
  | x :: xs => do
    let y ← jsonValue x
    let ys ← jsonList xs
    pure (y :: ys)

/-- JSON rendering of the entries of a string-keyed dict. -/
def jsonPairs : List (String × TValue) → Except String (List String)
  | [] => pure []
  | (k, v) :: rest => do
    let y ← jsonValue v
    let ys ← jsonPairs rest
    pure (("\"" ++ jsonEscape k ++ "\": " ++ y) :: ys)

end

/-- `json.dumps` of a string-keyed dict literal, with Python's default
separators. -/
def jsonDumps (pairs : List (String × TValue)) : Except String String := do
  let ys ← jsonPairs pairs
  pure ("\x7b" ++ String.intercalate ", " ys ++ "\x7d")

/--
`SearchTelegram.get_media_type`: the `_type` tag of the media mapping, mapped
through the attachment-kind table; any `AttributeError` (media is not a dict)
or `KeyError` (absent or unrecognized tag, including `NoneType` and
`MessageMediaEmpty` which map to the empty string) degrades to `""`.
-/
def get_media_type (media : TValue) : String :=
  match media with
  | .dict fs =>
    match lookupA fs "_type" with
    | some (.str "MessageMediaContact") => "contact"
    | some (.str "MessageMediaDocument") => "document"
    | some (.str "MessageMediaGame") => "game"
    | some (.str "MessageMediaGeo") => "geo"
    | some (.str "MessageMediaGeoLive") => "geo_live"
    | some (.str "MessageMediaInvoice") => "invoice"
    | some (.str "MessageMediaPhoto") => "photo"
    | some (.str "MessageMediaPoll") => "poll"
    | some (.str "MessageMediaUnsupported") => "unsupported"
    | some (.str "MessageMediaVenue") => "venue"
    | some (.str "MessageMediaWebPage") => "url"
    | _ => ""
  | _ => ""

/-- The contact sub-fields `map_item` serializes. -/
def contactKeys : List String :=
  ["phone_number", "first_name", "last_name", "vcard", "user_id"]

/-- Python dict keys must be hashable; lists and dicts raise `TypeError`. -/
def hashableKey (v : TValue) : Except String Unit :=
  match v with
  | .list _ => throw "TypeError: unhashable type"
  | .dict _ => throw "TypeError: unhashable type"
  | _ => pure ()

/-- Insertion into a Python dict keyed by arbitrary hashable values: replace
the entry if an equal key exists, else append. -/
def pyDictInsert (d : List (TValue × TValue)) (k v : TValue) : List (TValue × TValue) :=
  if d.any (fun p => pyEqKey p.1 k) then
    d.map (fun p => if pyEqKey p.1 k then (k, v) else p)
  else
    d ++ [(k, v)]

/-- Lookup in a Python dict keyed by arbitrary hashable values (`KeyError`
when absent). -/
def pyDictFind (d : List (TValue × TValue)) (k : TValue) : Except String TValue :=
  match d.find? (fun p => pyEqKey p.1 k) with
  | some p => pure p.2
  | none => throw "KeyError: poll option"

/-- The thread naming block of `map_item`: a `None` chat yields the
`error-no-chat`/`error-no-id` sentinels; otherwise the chat username if
truthy, else the whitespace-stripped title if truthy, else `"unknown"`; the
numeric id if truthy, else `"unknown"`. Missing `username`/`title`/`id` keys
raise `KeyError` exactly as the source's bare subscripts do. -/
def threadInfo (chat : TValue) : Except String (TValue × TValue) :=
  match chat with
  | .none_ => pure (.str "error-no-chat", .str "error-no-id")
  | _ => do
    let username ← getItem chat "username"
    let thread ←
      if truthy username then
        pure username
      else do
        let title ← getItem chat "title"
        if truthy title then
          match title with
          | .str t => pure (TValue.str (removeWs t))
          | _ => throw "TypeError: expected string or bytes-like object"
        else
          pure (TValue.str "unknown")
    let cid ← getItem chat "id"
    let thread_num_id := if truthy cid then cid else TValue.str "unknown"
    pure (thread, thread_num_id)

/-- `user_id = message["_sender"]["id"] if message.get("_sender") else ""`. -/
def senderUserId (sender : TValue) : Except String TValue :=
  if truthy sender then getItem sender "id" else pure (TValue.str "")

/-- `user_is_bot = message["_sender"].get("bot", False) if ... else ""`. -/
def senderIsBot (sender : TValue) : Except String TValue :=
  if truthy sender then pyGet sender "bot" (.bool false) else pure (TValue.str "")

/-- `if message.get("_sender") and message["_sender"].get("username"):
username = message["_sender"]["username"]`. -/
def senderUsername (sender : TValue) : Except String TValue :=
  if truthy sender then do
    let u ← pyGet sender "username" .none_
    if truthy u then getItem sender "username" else pure (TValue.str "")
  else pure (TValue.str "")

/-- `if ... .get("first_name"): fullname += message["_sender"]["first_name"]`
starting from the empty string (string concatenation raises on non-strings). -/
def senderFirstName (sender : TValue) : Except String String :=
  if truthy sender then do
    let fn ← pyGet sender "first_name" .none_
    if truthy fn then
      match fn with
      | .str s => pure s
      | _ => throw "TypeError: can only concatenate str"
    else pure ""
  else pure ""

/-- `if ... .get("last_name"): fullname += " " + message["_sender"]["last_name"]`. -/
def senderWithLastName (sender : TValue) (fullname : String) : Except String String :=
  if truthy sender then do
    let ln ← pyGet sender "last_name" .none_
    if truthy ln then
      match ln with
      | .str s => pure (fullname ++ " " ++ s)
      | _ => throw "TypeError: can only concatenate str"
    else pure fullname
  else pure fullname

/-- The sender block of `map_item`: `user_id`, `user_is_bot`, `username` and
`fullname`, each defaulting to the empty string when `_sender` is absent or
falsy; a truthy `_sender` is subscripted for `id` (raising `KeyError` when
missing) and `.get` is used for the optional name fields; name fragments are
concatenated as strings and stripped. -/
def senderInfo (m : List (String × TValue)) :
    Except String (TValue × TValue × TValue × String) := do
  let sender := pyGetD m "_sender" .none_
  let user_id ← senderUserId sender
  let user_is_bot ← senderIsBot sender
  let username ← senderUsername sender
  let fullname ← senderFirstName sender
  let fullname ← senderWithLastName sender fullname
  pure (user_id, user_is_bot, username, pyStrip fullname)

/-- The attachment block of `map_item`: kind-specific extraction of
`(attachment_type, attachment_data, attachment_filename)`. The contact branch
raises `ProcessorException` when neither known contact shape is present; the
document branch re-classifies the type to the MIME prefix and serializes video
references; the photo branch serializes the photo reference and derives the
filename from the thread name and message id; the poll branch serializes
question/voters/answers with the `-1` no-votes sentinel; the url branch takes
the preview URL leniently; every other kind yields empty data. -/
def attachmentInfo (media : TValue) (thread : TValue) (m : List (String × TValue)) :
    Except String (String × TValue × String) := do
  let attachment_type := get_media_type media
  if attachment_type = "contact" then
    match media with
    | .dict fs => do
      let contact_val := pyGetD fs "contact" (.bool false)
      let attachment ←
        if truthy contact_val then
          dictGet fs "contact"
        else if contactKeys.all (fun p => (lookupA fs p).isSome) then
          pure (TValue.dict fs)
        else
          throw "ProcessorException: Cannot find contact data; Telegram datastructure may have changed"
      let pairs ← contactKeys.mapM fun p => do
        let v ← pyGet attachment p .none_
        pure (p, v)
      let s ← jsonDumps pairs
      pure ("contact", TValue.str s, "")
    | _ => throw "AttributeError: object has no attribute get"
  else if attachment_type = "document" then do
    let doc ← getItem media "document"
    let mime ← getItem doc "mime_type"
    let mimeStr ←
      match mime with
      | .str s => pure s
      | _ => throw "AttributeError: object has no attribute split"
    let attachment_type2 := (mimeStr.splitOn "/").headD ""
    if attachment_type2 = "video" then do
      let i ← getItem doc "id"
      let dc ← getItem doc "dc_id"
      let fr ← getItem doc "file_reference"
      let s ← jsonDumps [("id", i), ("dc_id", dc), ("file_reference", fr)]
      pure (attachment_type2, TValue.str s, "")
    else
      pure (attachment_type2, TValue.str "", "")
  else if attachment_type = "photo" then do
    let photo ← getItem media "photo"
    let i ← getItem photo "id"
    let dc ← getItem photo "dc_id"
    let fr ← getItem photo "file_reference"
    let s ← jsonDumps [("id", i), ("dc_id", dc), ("file_reference", fr)]
    let mid ← dictGet m "id"
    let tstr ←
      match thread with
      | .str t => pure t
      | _ => throw "TypeError: can only concatenate str"
    pure ("photo", TValue.str s, tstr ++ "-" ++ pyStrOf mid ++ ".jpeg")
  else if attachment_type = "poll" then do
    let poll ← getItem media "poll"
    let answers ← getItem poll "answers"
    let answersList ←
      match answers with
      | .list xs => pure xs
      | _ => throw "TypeError: object is not iterable"
    let options ← answersList.foldlM (fun acc o => do
        let k ← getItem o "option"
        let _ ← hashableKey k
        let t ← getItem o "text"
        pure (pyDictInsert acc k t)) ([] : List (TValue × TValue))
    let question ← getItem poll "question"
    let results ← getItem media "results"
    let total ← getItem results "total_voters"
    let rs ← getItem results "results"
    let answersJson ←
      if truthy rs then do
        let xs ←
          match rs with
          | .list xs => pure xs
          | _ => throw "TypeError: object is not iterable"
        xs.mapM fun answer => do
          let ao ← getItem answer "option"
          let av ← pyDictFind options ao
          let votes ← getItem answer "voters"
          pure (TValue.dict [("answer", av), ("votes", votes)])
      else
        pure (options.map fun p => TValue.dict [("answer", p.2), ("votes", .int (-1))])
    let s ← jsonDumps [("question", question), ("voters", total), ("answers", .list answersJson)]
    pure ("poll", TValue.str s, "")
  else if attachment_type = "url" then do
    let wp ← pyGet media "web_preview" (.dict [])
    let u ← pyGet wp "url" (.str "")
    pure ("url", u, "")
  else
    pure (attachment_type, TValue.str "", "")

/-- The forward-origin block of `map_item`: defaults of `""` for timestamp,
name and username; populated only when `fwd_from` is truthy, carries a
`from_id` key and that id is not a bare int. The inner lookups reproduce the
source's mix of bare subscripts (raising) and `.get` (tolerant), including the
guard that tests `fwd_from.get("last_name")` but concatenates the user's
`last_name`. -/
def forwardInfo (m : List (String × TValue)) : Except String (TValue × TValue × TValue) := do
  let fwd := pyGetD m "fwd_from" .none_
  if truthy fwd then do
    let hasFrom ← pyIn "from_id" fwd
    if hasFrom then do
      let fid ← getItem fwd "from_id"
      match fid with
      | .int _ => pure (.str "", .str "", .str "")
      | _ => do
        let d ← getItem fwd "date"
        let di ← pyInt d
        let ft : TValue := .int di
        let from_data := fid
        let _ ←
          if truthy from_data then do
            let inner ← pyGet from_data "user_id" (.str "")
            let _ ← pyGet from_data "channel_id" inner
            pure ()
          else pure ()
        let fn1 ← do
          let v ← pyGet fwd "from_name" .none_
          if truthy v then pyGet fwd "from_name" .none_ else pure (TValue.str "")
        let fn2 ←
          if truthy from_data then do
            let v ← pyGet from_data "from_name" .none_
            if truthy v then getItem fwd "from_name" else pure fn1
          else pure fn1
        if truthy from_data then do
          let hasUser ← pyIn "user" from_data
          let hasChats ← pyIn "chats" from_data
          if hasUser || hasChats then
            if hasUser then do
              let user ← getItem from_data "user"
              let fu1 ← do
                let v ← pyGet user "username" .none_
                if truthy v then getItem user "username" else pure (TValue.str "")
              let fn3 ← do
                let v ← pyGet user "first_name" .none_
                if truthy v then getItem user "first_name" else pure fn2
              let fn4 ← do
                let v ← pyGet fwd "last_name" .none_
                if truthy v then do
                  let ln ← getItem user "last_name"
                  match fn3, ln with
                  | .str a, .str b => pure (TValue.str (a ++ "  " ++ b))
                  | _, _ => throw "TypeError: can only concatenate str"
                else pure fn3
              let fn5 ←
                match fn4 with
                | .str s => pure (TValue.str (pyStrip s))
                | _ => throw "AttributeError: object has no attribute strip"
              pure (ft, fn5, fu1)
            else do
              let channel_id := pyGetD (match from_data with | .dict fs => fs | _ => []) "channel_id" .none_
              let chats ← getItem from_data "chats"
              let chatList ←
                match chats with
                | .list xs => pure xs
                | _ => throw "TypeError: object is not iterable"
              let fu1 ← chatList.foldlM (fun acc chat => do
                  let cid ← getItem chat "id"
                  let isNone := match channel_id with | .none_ => true | _ => false
                  if pyEqKey cid channel_id || isNone then getItem chat "username"
                  else pure acc) (TValue.str "")
              pure (ft, fn2, fu1)
          else
            pure (ft, fn2, .str "")
        else
          pure (ft, fn2, .str "")
    else
      pure (.str "", .str "", .str "")
  else
    pure (.str "", .str "", .str "")

/-- `datetime.fromtimestamp(v).strftime("%Y-%m-%d %H:%M:%S") if v else ""`:
the formatted timestamp of a truthy value (raising on non-numbers), the empty
string otherwise. -/
def formatOptTimestamp (v : TValue) : Except String TValue :=
  if truthy v then do
    let n ← pyNum v
    pure (TValue.str (fmtTimestamp n))
  else pure (TValue.str "")

/-- `int(v) if v else ""`. -/
def intOptTimestamp (v : TValue) : Except String TValue :=
  if truthy v then do
    let n ← pyInt v
    pure (TValue.int n)
  else pure (TValue.str "")

/-- The record assembly of `map_item` for a message that is a dict: the
sections run in source order (thread naming, sender, attachment, forward
origin), then the output dict literal's fields are evaluated left to right.
The result is the record as an ordered field list. -/
def mapItemDict (m : List (String × TValue)) : Except String (List (String × TValue)) := do
  let chat ← dictGet m "_chat"
  let ti ← threadInfo chat
  let si ← senderInfo m
  let media ← dictGet m "media"
  let ai ← attachmentInfo media ti.1 m
  let fi ← forwardInfo m
  let mid ← dictGet m "id"
  let body ← dictGet m "message"
  let reply_to := pyGetD m "reply_to_msg_id" (.str "")
  let views ← dictGet m "views"
  let viewsOut := if truthy views then views else TValue.str ""
  let dateV ← dictGet m "date"
  let dateN ← pyNum dateV
  let dateI ← pyInt dateV
  let editV ← dictGet m "edit_date"
  let tsEdited ← formatOptTimestamp editV
  let unixEdited ← intOptTimestamp editV
  let tsFwd ← formatOptTimestamp fi.1
  pure [("id", mid), ("thread_num_id", ti.2), ("thread_id", ti.1), ("chat", ti.1),
        ("author", si.1), ("author_username", si.2.2.1), ("author_name", .str si.2.2.2),
        ("author_is_bot", si.2.1), ("body", body), ("reply_to", reply_to),
        ("views", viewsOut), ("timestamp", .str (fmtTimestamp dateN)),
        ("unix_timestamp", .int dateI), ("timestamp_edited", tsEdited),
        ("unix_timestamp_edited", unixEdited), ("author_forwarded_from_name", fi.2.1),
        ("author_forwarded_from_username", fi.2.2),
        ("timestamp_forwarded_from", tsFwd), ("unix_timestamp_forwarded_from", fi.1),
        ("attachment_type", .str ai.1), ("attachment_data", ai.2.1),
        ("attachment_filename", .str ai.2.2)]

/-- `SearchTelegram.map_item`: convert a serialized message to the canonical
record. A non-dict input fails immediately on the first subscript. -/
def map_item (message : TValue) : Except String (List (String × TValue)) :=
  match message with
  | .dict m => mapItemDict m
  | _ => throw "TypeError: message is not subscriptable"

/-- The field names of the record `map_item` emits, in source order. -/
def mapItemFieldNames : List String :=
  ["id", "thread_num_id", "thread_id", "chat", "author", "author_username", "author_name",
   "author_is_bot", "body", "reply_to", "views", "timestamp", "unix_timestamp",
   "timestamp_edited", "unix_timestamp_edited", "author_forwarded_from_name",
   "author_forwarded_from_username", "timestamp_forwarded_from",
   "unix_timestamp_forwarded_from", "attachment_type", "attachment_data",
   "attachment_filename"]

/-- The required fields of the Normalized Record per the data model. -/
def requiredFieldNames : List String :=
  ["id", "thread_num_id", "thread_id", "author", "author_username", "author_name",
   "author_is_bot", "body", "reply_to", "views", "timestamp", "unix_timestamp",
   "timestamp_edited", "unix_timestamp_edited", "author_forwarded_from_name",
   "author_forwarded_from_username", "timestamp_forwarded_from",
   "unix_timestamp_forwarded_from", "attachment_type", "attachment_data",
   "attachment_filename"]

/-- An optional value that, when truthy, is a string (safe for the source's
string concatenations). -/
def strIfTruthy (o : Option TValue) : Bool :=
  match o with
  | some v => !truthy v || (match v with | .str _ => true | _ => false)
  | none => true

/-- A `_chat` value `map_item` handles without raising: `None`, or a mapping
with string `username` and `title` and some `id`. -/
def chatOk : TValue → Bool
  | .none_ => true
  | .dict fs =>
    (match lookupA fs "username" with | some (.str _) => true | _ => false) &&
    (match lookupA fs "title" with | some (.str _) => true | _ => false) &&
    (lookupA fs "id").isSome
  | _ => false

/-- A `_sender` shape `map_item` handles without raising: absent, falsy, or a
mapping with an `id` and name fragments that are strings when truthy. -/
def senderOk (m : List (String × TValue)) : Bool :=
  match lookupA m "_sender" with
  | none => true
  | some s =>
    !truthy s ||
    (match s with
     | .dict fs =>
       (lookupA fs "id").isSome && strIfTruthy (lookupA fs "first_name") &&
         strIfTruthy (lookupA fs "last_name")
     | _ => false)

/-- A `fwd_from` shape whose forward block is skipped without raising: absent,
falsy, or a mapping whose `from_id` is absent or a bare int. -/
def fwdOk (m : List (String × TValue)) : Bool :=
  match lookupA m "fwd_from" with
  | none => true
  | some f =>
    !truthy f ||
    (match f with
     | .dict fs =>
       (match lookupA fs "from_id" with
        | none => true
        | some (.int _) => true
        | some _ => false)
     | _ => false)

/-- An int or float (what `datetime.fromtimestamp` and `int()` both accept
here). -/
def numOrFloat : TValue → Bool
  | .int _ => true
  | .float _ => true
  | _ => false

/-- An `edit_date` value `map_item` handles: falsy (renders as `""`) or
numeric. -/
def editOk (v : TValue) : Bool := !truthy v || numOrFloat v

/-- Messages on which `map_item` is proven total: every top-level field the
source subscripts unconditionally (`_chat`, `media`, `id`, `message`, `views`,
`date`, `edit_date`) is present and shaped as the source requires, the media
carries no recognized attachment tag, and the optional `_sender` and
`fwd_from` sub-structures — which may be missing entirely — are well-shaped
when present. -/
def wellFormedMsg : TValue → Bool
  | .dict m =>
    (match lookupA m "_chat" with | some c => chatOk c | none => false) &&
    senderOk m &&
    (match lookupA m "media" with | some v => decide (get_media_type v = "") | none => false) &&
    fwdOk m &&
    (lookupA m "id").isSome &&
    (lookupA m "message").isSome &&
    (lookupA m "views").isSome &&
    (match lookupA m "date" with | some v => numOrFloat v | none => false) &&
    (match lookupA m "edit_date" with | some v => editOk v | none => false)
  | _ => false

/-- C3 counterexample input: a flattened message whose contact attachment
lacks the contact sub-fields in both known shapes (all other required
top-level fields present). -/
def c3msg : TValue :=
  .dict [("_chat", .none_),
         ("media", .dict [("_type", .str "MessageMediaContact")]),
         ("id", .int 1), ("message", .str "hi"), ("views", .int 0),
         ("date", .float 1600000000), ("edit_date", .none_)]

/-- Witness input for the amended C3 theorem: a plain well-formed message with
chat data, no attachment, no sender and no forward data. -/
def c3ok : TValue :=
  .dict [("_chat", .dict [("username", .str "chan"), ("title", .str "Chan"), ("id", .int 9)]),
         ("media", .none_),
         ("id", .int 7), ("message", .str "hello"), ("views", .int 3),
         ("date", .float 1600000000), ("edit_date", .none_)]

/-! ### Continuous collection: flushing, checkpoint markers, save_files -/

/-- The two Python error kinds that matter to `update_latest_markers`: its
`except` clause catches `KeyError` only; anything else propagates. -/
inductive PyErr where
  | keyError (k : String)
  | typeError (msg : String)
deriving DecidableEq, Repr

/-- Subscript with a string key in the marker-update path: `KeyError` for a
dict missing the key, `TypeError` (uncaught there) for non-dicts. -/
def lookupPy (v : TValue) (k : String) : Except PyErr TValue :=
  match v with
  | .dict fs =>
    match lookupA fs k with
    | some x => pure x
    | none => throw (.keyError k)
  | _ => throw (.typeError "value is not subscriptable")

/-- `record["_input_chat"]["channel_id"]`. -/
def channelOf (r : TValue) : Except PyErr TValue := do
  let c ← lookupPy r "_input_chat"
  lookupPy c "channel_id"

/-- The `_input_chat`/`channel_id` path of a record is missing with a
`KeyError` (the situation `update_latest_markers` catches). -/
def channelKeyMissing (r : TValue) : Bool :=
  match channelOf r with
  | .error (.keyError _) => true
  | _ => false

/-- One insertion into a Python set under construction: unhashable values
raise `TypeError`, values equal to a present element are skipped. -/
def pySetInsert (acc : List TValue) (c : TValue) : Except PyErr (List TValue) :=
  match c with
  | .list _ => throw (.typeError "unhashable type")
  | .dict _ => throw (.typeError "unhashable type")
  | _ => pure (if acc.any (fun x => pyEqKey x c) then acc else acc ++ [c])

/-- `set(record["_input_chat"]["channel_id"] for record in posts)`: every
record's channel id, deduplicated by Python equality in first-occurrence order
(a Python set iterates in an unspecified order; the resulting marker map does
not depend on it); unhashable values raise `TypeError`. -/
def channelsOf (posts : List TValue) : Except PyErr (List TValue) := do
  let cs ← posts.mapM channelOf
  cs.foldlM pySetInsert []

/-- Modelled from the external telethon helper `utils.get_peer_id`: a plain
int is returned unchanged (telethon treats it as an already-marked peer id);
other values raise. -/
def getPeerId (v : TValue) : Except PyErr Int :=
  match v with
  | .int n => pure n
  | _ => throw (.typeError "cannot get peer id")

/-- Checkpoint Marker Set: channel peer-id string to last-saved message id. -/
abbrev Markers := List (String × TValue)

/-- A record whose channel lookup can only succeed or fail with a caught
`KeyError` — never a propagating `TypeError`. -/
def markerBenign (r : TValue) : Bool :=
  match r with
  | .dict fs =>
    match lookupA fs "_input_chat" with
    | none => true
    | some (.dict cfs) =>
      (match lookupA cfs "channel_id" with
       | none => true
       | some (.int _) => true
       | some _ => false)
    | some _ => false
  | _ => false

/-- A record for which the marker update fully succeeds: an int channel id
under `_input_chat` and an `id` field. -/
def markerReady (r : TValue) : Bool :=
  match r with
  | .dict fs =>
    (match lookupA fs "_input_chat" with
     | some (.dict cfs) =>
       (match lookupA cfs "channel_id" with
        | some (.int _) => true
        | _ => false)
     | _ => false) &&
    (lookupA fs "id").isSome
  | _ => false

/-- One channel of the marker loop: `record = next(post for post in posts if
post["_input_chat"]["channel_id"] == channel)`, then record that record's `id`
under `str(utils.get_peer_id(channel))`. -/
def markerStep (posts : List TValue) (acc : Markers) (channel : TValue) :
    Except PyErr Markers :=
  match posts.find? (fun post =>
      match channelOf post with
      | .ok c => pyEqKey c channel
      | .error _ => false) with
  | some record =>
    if truthy record then do
      let message_id ← lookupPy record "id"
      let channel_id ← getPeerId channel
      pure (setKeyA acc (toString channel_id) message_id)
    else
      pure acc
  | none => pure acc

/-- The marker computation inside the `try` of `update_latest_markers`,
over the already-reversed batch: collect the channel set, then for each
channel find its first record in the reversed batch and record that record's
`id` under the channel's peer id. The persisting call happens only after the
whole loop, so the computation is all-or-nothing. -/
def computeMarkers (posts : List TValue) (final0 : Markers) : Except PyErr Markers := do
  let channels ← channelsOf posts
  channels.foldlM (markerStep posts) final0

/-- `SearchTelegram.update_latest_markers`: reverses the caller's list in
place (the first component is the caller's view of the batch after the call,
reversed even when an exception follows), then computes the new marker map; a
`KeyError` is caught and logged, leaving the persisted markers entirely
unchanged; a `TypeError` propagates. The second component is the persisted
marker outcome. -/
def update_latest_markers (continuous_posts : List TValue) (existing : Markers) :
    List TValue × Except String Markers :=
  let posts := continuous_posts.reverse
  let final0 : Markers := if existing.isEmpty then [] else existing
  (posts,
   match computeMarkers posts final0 with
   | .ok final => .ok final
   | .error (.keyError _) => .ok existing
   | .error (.typeError e) => .error e)

/-- `SearchTelegram.save_files` for a dataset whose result file has suffix
`fmt` (the remote-sink upload is optional and non-fatal and is not modelled):
when the batch is non-empty it is written as a new subfile — in its current,
pre-reversal order — or `NotImplementedError` is raised for an unsupported
format; afterwards `update_latest_markers` runs, reversing the caller's batch
in place. Returns the caller-visible batch, the subfiles, and the marker
outcome. -/
def save_files (fmt : String) (items : List TValue) (markers : Markers)
    (subfiles : List (List TValue)) :
    List TValue × List (List TValue) × Except String Markers :=
  if items.isEmpty then
    match update_latest_markers items markers with
    | (items2, mres) => (items2, subfiles, mres)
  else if fmt = ".ndjson" ∨ fmt = ".csv" then
    match update_latest_markers items markers with
    | (items2, mres) => (items2, subfiles ++ [items], mres)
  else
    (items, subfiles, .error "NotImplementedError")

/-- The interruption flag of the worker as the polling loop reads it. -/
inductive Interrupt where
  | none
  | stop
  | other
deriving DecidableEq, Repr

/-- How one polling-loop iteration ends. -/
inductive TickOutcome where
  | keepListening
  | stopClean
  | stopMaxDate
deriving DecidableEq, Repr

/-- State of the continuous collection loop: the unflushed accumulator
(`continuous_posts`), the cumulative returned list (`final_file_posts`), the
persisted Checkpoint Marker Set, the written subfiles, and whether the final
archive has been produced. -/
structure ContState where
  continuous_posts : List TValue
  final_file_posts : List TValue
  markers : Markers
  subfiles : List (List TValue)
  zipped : Bool

/-- The flush of the polling loop: save the accumulator via `save_files`,
append the (now reversed) batch to the cumulative result, then clear the
accumulator. -/
def flushResult (fmt : String) (st : ContState) : Except String ContState :=
  match save_files fmt st.continuous_posts st.markers st.subfiles with
  | (posts2, subs2, .ok mk2) =>
    .ok { st with continuous_posts := [],
                  final_file_posts := st.final_file_posts ++ posts2,
                  markers := mk2, subfiles := subs2 }
  | (_, _, .error e) => .error e

/-- The flush performed on a stop signal: like `flushResult` but without the
`.clear()` — the loop breaks right after, with the caller's accumulator left
reversed. -/
def stopFlushResult (fmt : String) (st : ContState) : Except String ContState :=
  match save_files fmt st.continuous_posts st.markers st.subfiles with
  | (posts2, subs2, .ok mk2) =>
    .ok { st with continuous_posts := posts2,
                  final_file_posts := st.final_file_posts ++ posts2,
                  markers := mk2, subfiles := subs2 }
  | (_, _, .error e) => .error e

/-- One iteration of the polling loop of `continuous_collection`, checked in
source order: (1) flush when the accumulator holds at least `max_items`
records or it is the last second of the day with a non-empty accumulator;
(2) on the external stop signal, flush the remainder, bundle all subfiles into
the archive and stop cleanly; (3) past `max_date`, stop without bundling;
(4) on any other interruption, raise. -/
def continuous_tick (fmt : String) (max_items : Nat) (is_eod : Bool)
    (interrupted : Interrupt) (past_max_date : Bool) (st : ContState) :
    Except String (ContState × TickOutcome) :=
  let flushed : Except String ContState :=
    if max_items ≤ st.continuous_posts.length ∨ (is_eod ∧ ¬st.continuous_posts.isEmpty) then
      flushResult fmt st
    else .ok st
  match flushed with
  | .error e => .error e
  | .ok st =>
    if interrupted = .stop then
      match (if st.continuous_posts.isEmpty then .ok st else stopFlushResult fmt st :
          Except String ContState) with
      | .error e => .error e
      | .ok st2 => .ok ({ st2 with zipped := true }, .stopClean)
    else if past_max_date then
      .ok (st, .stopMaxDate)
    else if interrupted = .other then
      .error "ProcessorInterruptedException"
    else
      .ok (st, .keepListening)

/-- C10 counterexample records: both carry channel id 7; `c10bad` lacks the
`id` key, `c10good` has id 42. -/
def c10bad : TValue := .dict [("_input_chat", .dict [("channel_id", .int 7)])]

/-- See `c10bad`. -/
def c10good : TValue :=
  .dict [("_input_chat", .dict [("channel_id", .int 7)]), ("id", .int 42)]

/-- Concrete polling-loop state for the C8/C9 witnesses: two accumulated
well-formed records, nothing flushed yet. -/
def c8state : ContState :=
  { continuous_posts := [c10good, c10good], final_file_posts := [], markers := [],
    subfiles := [], zipped := false }

/-! ## Theorems -/

theorem serialize_obj_of_topScalar (v : TValue) (h : topScalar v = true) :
    serialize_obj v = some v := by
  cases v <;> first
    | rfl
    | simp [topScalar] at h

theorem serializeList_of_topScalar (xs : List TValue) (h : xs.all topScalar = true) :
    serializeList xs = some xs := by
  induction xs with
  | nil => rfl
  | cons x xs ih =>
    simp only [List.all_cons, Bool.and_eq_true] at h
    simp [serializeList, serialize_obj_of_topScalar x h.1, ih h.2]

theorem serializeField_of_simpleVal (v : TValue) (h : simpleVal v = true) :
    serializeField v = some (some v) := by
  cases v with
  | list xs =>
    simp only [simpleVal] at h
    simp [serializeField, serializeList_of_topScalar xs h]
  | _ => first
    | rfl
    | simp [simpleVal] at h

theorem serializeFields_of_simpleVal (fs : List (String × TValue))
    (h : fs.all (fun p => simpleVal p.2) = true) :
    serializeFields fs = some fs := by
  induction fs with
  | nil => rfl
  | cons p rest ih =>
    simp only [List.all_cons, Bool.and_eq_true] at h
    cases p with
    | mk k v =>
      simp [serializeFields, serializeField_of_simpleVal v h.1, ih h.2]

/--
C2 counterexample: `flatten (flatten x) = flatten x` fails. Flattening `c2x`
yields a mapping with a nested mapping value (the serialized peer, tagged with
`_type`); flattening that mapping again drops the nested-mapping field (it
falls into the "type we can't make sense of here" drop branch, in front of
which the source's own dict branch is unreachable), giving an empty mapping.
-/
theorem serialize_obj_not_idempotent :
    (serialize_obj c2x).bind serialize_obj ≠ serialize_obj c2x := by
  have h1 : serialize_obj c2x =
      some (.dict [("peer", .dict [("channel_id", .int 5), ("_type", .str "PeerChannel")])]) := rfl
  have h2 : (serialize_obj c2x).bind serialize_obj = some (.dict []) := rfl
  rw [h1] at h2 ⊢
  rw [h2]
  intro h
  injection h with h
  injection h with h
  exact List.noConfusion h

/--
C2 amended: `flatten` is idempotent on already-flattened mappings containing no
nested mappings: if every field value of a mapping is a scalar, `None`, or a
list of values `serialize_obj` returns unchanged, then flattening the mapping
is a no-op copy and `flatten (flatten x) = flatten x` holds for it. (Full
idempotence fails: a nested mapping value is dropped by the second pass, see
the counterexample.)
-/
theorem serialize_obj_idempotent_on_flat_mappings (fs : List (String × TValue))
    (h : fs.all (fun p => simpleVal p.2) = true) :
    (serialize_obj (.dict fs)).bind serialize_obj = serialize_obj (.dict fs) := by
  have hfix : serialize_obj (.dict fs) = some (.dict fs) := by
    simp [serialize_obj, serializeFields_of_simpleVal fs h]
  rw [hfix]
  simpa using hfix

theorem blakeCompress_length (h m : List Nat) (t : Nat) (f : Bool) :
    (blakeCompress h m t f).length = 8 := by
  simp [blakeCompress]

theorem blakeBlocksFuel_length (fuel : Nat) :
    ∀ (h rest : List Nat) (passed : Nat), (blakeBlocksFuel fuel h rest passed).length = 8 := by
  induction fuel with
  | zero => intro h rest passed; simp [blakeBlocksFuel, blakeCompress_length]
  | succ fuel ih =>
    intro h rest passed
    simp only [blakeBlocksFuel]
    split
    · exact blakeCompress_length ..
    · exact ih ..

theorem flatMap_wordLEBytes_length (ws : List Nat) :
    (ws.flatMap wordLEBytes).length = 8 * ws.length := by
  induction ws with
  | nil => rfl
  | cons w ws ih =>
    simp only [List.flatMap_cons, List.length_append, ih, List.length_cons]
    simp [wordLEBytes]
    ring

theorem bytesHex_length (bs : List Nat) : (bytesHex bs).length = 2 * bs.length := by
  simp only [bytesHex, String.length]
  induction bs with
  | nil => rfl
  | cons b bs ih =>
    simp only [List.flatMap_cons, List.length_append, List.length_cons] at ih ⊢
    simp [byteHexChars] at ih ⊢
    omega

/--
C5 counterexample: the hex digest returned by `create_session_id` can contain
the raw phone number (phone with `+` and whitespace stripped) as a substring.
For phone `+1`, api_id `1`, api_hash `x`, the raw phone is `1` and the digest
(`775e06...`) contains the character `1`.
-/
theorem create_session_id_contains_raw_phone :
    rawPhone "+1" = "1" ∧
    strContainsSub (create_session_id "+1" "1" "x") (rawPhone "+1") = true :=
  ⟨rfl, by decide⟩

theorem create_session_id_length (p i h : String) :
    (create_session_id p i h).length = 128 := by
  show (bytesHex (blake2b (asciiBytes (removePlus (pyStrip p) ++ pyStrip i ++ pyStrip h)))).length = 128
  rw [bytesHex_length]
  show 2 * ((blakeBlocks _ _ 0).flatMap wordLEBytes).length = 128
  rw [flatMap_wordLEBytes_length]
  unfold blakeBlocks
  rw [blakeBlocksFuel_length]

/--
C5 amended: `create_session_id` is a deterministic pure function — two calls
with identical arguments return the same string — and its result is always a
fixed 128-character hex digest of the credential concatenation; however the
raw phone number can occur in that digest as a hex coincidence, so the
"never contains the raw phone as a substring" guarantee does not hold (see the
counterexample).
-/
theorem create_session_id_deterministic (p i h : String) :
    create_session_id p i h = create_session_id p i h ∧
    (create_session_id p i h).length = 128 :=
  ⟨rfl, create_session_id_length p i h⟩

/--
C4: the session identity actually used by `execute_queries` is NOT the suffixed
identity chosen by `validate_query`. `validate_query` stores the disambiguation
code under the parameter key `"session-code"`, but `execute_queries` reads the
key `"sesson-code"` (a typo), finds nothing, and opens the transport session
under the unsuffixed base hash. Evaluated here at a concrete credential set
with one concurrent telegram job and stored code `ab12`: validation chooses
`base ++ "ab12"` and stores the code under `"session-code"`, yet collection
uses plain `base`, which differs from the suffixed identity.
-/
theorem execute_queries_drops_session_code :
    (validate_query_session (create_session_id "+31612345678" "12345" "abcdef") 1
        (some "ab12") none "cccc").1 =
      create_session_id "+31612345678" "12345" "abcdef" ++ "ab12" ∧
    lookupA (validate_query_session (create_session_id "+31612345678" "12345" "abcdef") 1
        (some "ab12") none "cccc").2 "session-code" = some (.str "ab12") ∧
    execute_queries_session_id
        (validate_query_session (create_session_id "+31612345678" "12345" "abcdef") 1
          (some "ab12") none "cccc").2 "+31612345678" "12345" "abcdef" =
      create_session_id "+31612345678" "12345" "abcdef" ∧
    create_session_id "+31612345678" "12345" "abcdef" ≠
      create_session_id "+31612345678" "12345" "abcdef" ++ "ab12" := by
  refine ⟨rfl, rfl, rfl, ?_⟩
  intro h
  have hlen := congrArg String.length h
  rw [String.length_append, create_session_id_length] at hlen
  have h4 : ("ab12" : String).length = 4 := rfl
  omega

/-- Witness for the amended C2 theorem at a concrete flat mapping. -/
theorem serialize_obj_idempotent_on_flat_mappings_witness :
    ([("id", TValue.int 1), ("date", TValue.float 1700000000),
      ("tags", TValue.list [TValue.str "a", TValue.int 2])].all
        (fun p => simpleVal p.2) = true) ∧
    (serialize_obj (.dict [("id", TValue.int 1), ("date", TValue.float 1700000000),
      ("tags", TValue.list [TValue.str "a", TValue.int 2])])).bind serialize_obj =
      serialize_obj (.dict [("id", TValue.int 1), ("date", TValue.float 1700000000),
        ("tags", TValue.list [TValue.str "a", TValue.int 2])]) :=
  ⟨rfl, serialize_obj_idempotent_on_flat_mappings _ rfl⟩

/--
C1 (code bug): on the very first transient timeout for an entity, the source
skips the entity immediately and marks the run not flawless. `retries` is
initialized to 0 and never incremented, so the guard `if retries < 3` always
fires and the backoff branch (sleep `delay`, double it, retry the entity) is
unreachable — the inverse of the claimed policy of retrying up to 3 times with
10s/20s/40s backoff before skipping. Here the script times out once and would
deliver one message on a retry pass; the run nonetheless yields nothing and
ends not flawless, because the retry never happens.
-/
theorem gather_posts_timeout_skips_without_retry :
    gather_posts 10 none true [[⟨[], .timeout⟩, ⟨[⟨100, false⟩], .done⟩]] initLoopState =
      { initLoopState with flawless := false } := by
  decide

theorem gather_posts_skip_of_no_additional (mi : Nat) (md : Option Nat) (ia : Bool)
    (l : List (List Attempt)) (st : LoopState) (h : st.no_additional_queries = true) :
    gather_posts mi md ia l st = st := by
  induction l with
  | nil => rfl
  | cons s rest ih => simp [gather_posts, h, ih]

/--
C6: rate-limit handling in the entity collection loop. If an iterator pass for
an entity raises a rate limit of `w` seconds after delivering its messages
without an early stop, then: if `w` is below the ceiling
(`end_if_rate_limited = 600`), the loop sleeps and retries the same entity
(the computation continues with the remaining passes of the same entity's
script, everything else unchanged); if `w` is at or above the ceiling, the run
ends with `flawless = false` and `no_additional_queries = true`, the final
state shows nothing further was yielded, and every remaining entity is
skipped.
-/
theorem gather_posts_flood_wait (mi : Nat) (md : Option Nat) (ia : Bool)
    (ms : List Msg) (w : Nat) (rest : List Attempt) (others : List (List Attempt))
    (st : LoopState)
    (hnb : (consumeMsgs mi md ia 0 ms).2 = false)
    (hna : st.no_additional_queries = false) :
    (w < end_if_rate_limited →
      gather_posts mi md ia ((⟨ms, .floodWait w⟩ :: rest) :: others) st =
        gather_posts mi md ia others
          (run_entity mi md ia
            { st with retries := 0, delay := 10,
                      yielded := st.yielded ++ (consumeMsgs mi md ia 0 ms).1 } rest)) ∧
    (end_if_rate_limited ≤ w →
      gather_posts mi md ia ((⟨ms, .floodWait w⟩ :: rest) :: others) st =
        { st with retries := 0, delay := 10,
                  yielded := st.yielded ++ (consumeMsgs mi md ia 0 ms).1,
                  flawless := false, no_additional_queries := true }) := by
  have hstep : gather_posts mi md ia ((⟨ms, .floodWait w⟩ :: rest) :: others) st =
      gather_posts mi md ia others
        (run_entity mi md ia { st with retries := 0, delay := 10 }
          (⟨ms, .floodWait w⟩ :: rest)) := by
    simp [gather_posts, hna]
  have hnottrue : ¬((consumeMsgs mi md ia 0 ms).2 = true) := by
    rw [hnb]; exact Bool.false_ne_true
  constructor
  · intro hw
    rw [hstep]
    simp only [run_entity]
    rw [if_neg hnottrue, if_pos hw]
  · intro hw
    rw [hstep]
    simp only [run_entity]
    rw [if_neg hnottrue, if_neg (by omega)]
    exact gather_posts_skip_of_no_additional mi md ia others _ rfl

/-- Witness for the C6 theorem: a concrete 60-second rate limit (below the
600-second ceiling) retries the entity; a concrete 900-second rate limit ends
the run with nothing further yielded and no remaining entity executed. -/
theorem gather_posts_flood_wait_witness :
    ((consumeMsgs 10 none true 0 [⟨50, false⟩]).2 = false ∧
      initLoopState.no_additional_queries = false) ∧
    (60 < end_if_rate_limited →
      gather_posts 10 none true [[⟨[⟨50, false⟩], .floodWait 60⟩, ⟨[⟨40, false⟩], .done⟩]]
          initLoopState =
        gather_posts 10 none true []
          (run_entity 10 none true
            { initLoopState with retries := 0, delay := 10,
                                 yielded := initLoopState.yielded ++
                                   (consumeMsgs 10 none true 0 [⟨50, false⟩]).1 }
            [⟨[⟨40, false⟩], .done⟩])) ∧
    (end_if_rate_limited ≤ 900 →
      gather_posts 10 none true [[⟨[⟨50, false⟩], .floodWait 900⟩], [⟨[⟨40, false⟩], .done⟩]]
          initLoopState =
        { initLoopState with retries := 0, delay := 10,
                             yielded := initLoopState.yielded ++
                               (consumeMsgs 10 none true 0 [⟨50, false⟩]).1,
                             flawless := false, no_additional_queries := true }) :=
  ⟨⟨by decide, by decide⟩,
    (gather_posts_flood_wait 10 none true [⟨50, false⟩] 60 [⟨[⟨40, false⟩], .done⟩] []
      initLoopState (by decide) (by decide)).1,
    (gather_posts_flood_wait 10 none true [⟨50, false⟩] 900 [] [[⟨[⟨40, false⟩], .done⟩]]
      initLoopState (by decide) (by decide)).2⟩

theorem consumeMsgs_min_date (mi D : Nat) (ia : Bool) :
    ∀ (ms : List Msg) (ep : Nat) (m : Msg),
      m ∈ (consumeMsgs mi (some D) ia ep ms).1 → D ≤ m.date := by
  intro ms
  induction ms with
  | nil => intro ep m h; simp [consumeMsgs] at h
  | cons x xs ih =>
    intro ep m h
    simp only [consumeMsgs] at h
    by_cases hact : (!ia && x.isAction) = true
    · rw [if_pos hact] at h
      exact ih _ m h
    · rw [if_neg hact] at h
      by_cases hbelow : belowMinDate (some D) x.date = true
      · rw [if_pos hbelow] at h
        simp at h
      · rw [if_neg hbelow] at h
        have hxd : D ≤ x.date := by
          simp only [belowMinDate, decide_eq_true_eq] at hbelow
          omega
        by_cases hmax : mi ≤ ep + 1
        · rw [if_pos hmax] at h
          simp only [List.mem_singleton] at h
          subst h
          exact hxd
        · rw [if_neg hmax] at h
          simp only [List.mem_cons] at h
          rcases h with h | h
          · subst h
            exact hxd
          · exact ih _ m h

theorem run_entity_min_date (mi D : Nat) (ia : Bool) (attempts : List Attempt) :
    ∀ (st : LoopState), ∃ tail,
      (run_entity mi (some D) ia st attempts).yielded = st.yielded ++ tail ∧
      ∀ m ∈ tail, D ≤ m.date := by
  induction attempts with
  | nil => intro st; exact ⟨[], by simp [run_entity], by simp⟩
  | cons a rest ih =>
    intro st
    rcases a with ⟨ms, ending⟩
    simp only [run_entity]
    have hcons : ∀ m ∈ (consumeMsgs mi (some D) ia 0 ms).1, D ≤ m.date :=
      fun m hm => consumeMsgs_min_date mi D ia ms 0 m hm
    have happ : ∀ (t2 : List Msg), (∀ m ∈ t2, D ≤ m.date) →
        ∀ m ∈ (consumeMsgs mi (some D) ia 0 ms).1 ++ t2, D ≤ m.date := by
      intro t2 ha2 m hm
      rcases List.mem_append.mp hm with hm | hm
      · exact hcons m hm
      · exact ha2 m hm
    by_cases hb : (consumeMsgs mi (some D) ia 0 ms).2 = true
    · rw [if_pos hb]
      exact ⟨_, rfl, hcons⟩
    · rw [if_neg hb]
      cases ending with
      | done => exact ⟨_, rfl, hcons⟩
      | channelPrivate => exact ⟨_, rfl, hcons⟩
      | usernameInvalid => exact ⟨_, rfl, hcons⟩
      | badRequest => exact ⟨_, rfl, hcons⟩
      | valueError => exact ⟨_, rfl, hcons⟩
      | floodWait w =>
        dsimp only
        by_cases hw : w < end_if_rate_limited
        · rw [if_pos hw]
          obtain ⟨t2, ht2, ha2⟩ := ih _
          refine ⟨(consumeMsgs mi (some D) ia 0 ms).1 ++ t2, ?_, happ t2 ha2⟩
          rw [ht2]
          simp
        · rw [if_neg hw]
          exact ⟨_, rfl, hcons⟩
      | timeout =>
        dsimp only
        by_cases hr : st.retries < 3
        · rw [if_pos hr]
          exact ⟨_, rfl, hcons⟩
        · rw [if_neg hr]
          obtain ⟨t2, ht2, ha2⟩ := ih _
          refine ⟨(consumeMsgs mi (some D) ia 0 ms).1 ++ t2, ?_, happ t2 ha2⟩
          rw [ht2]
          simp

theorem gather_posts_min_date_aux (mi D : Nat) (ia : Bool) (scripts : List (List Attempt)) :
    ∀ st, ∃ tail, (gather_posts mi (some D) ia scripts st).yielded = st.yielded ++ tail ∧
      ∀ m ∈ tail, D ≤ m.date := by
  induction scripts with
  | nil => intro st; exact ⟨[], by simp [gather_posts], by simp⟩
  | cons s rest ih =>
    intro st
    simp only [gather_posts]
    by_cases hna : st.no_additional_queries = true
    · rw [if_pos hna]
      exact ih st
    · rw [if_neg hna]
      obtain ⟨t1, ht1, ha1⟩ := run_entity_min_date mi D ia s { st with retries := 0, delay := 10 }
      obtain ⟨t2, ht2, ha2⟩ := ih (run_entity mi (some D) ia { st with retries := 0, delay := 10 } s)
      refine ⟨t1 ++ t2, ?_, ?_⟩
      · rw [ht2, ht1]; simp
      · intro m hm
        rcases List.mem_append.mp hm with hm | hm
        · exact ha1 m hm
        · exact ha2 m hm

/--
C7: with a configured lower date bound `min_date = D`, no message whose
serialized `date` field is strictly below `D` is ever yielded by the entity
collection loop — page consumption stops with `break` at the first item whose
date falls below `D`, before that item is yielded.
-/
theorem gather_posts_respects_min_date (mi D : Nat) (ia : Bool)
    (scripts : List (List Attempt)) (m : Msg)
    (hm : m ∈ (gather_posts mi (some D) ia scripts initLoopState).yielded) :
    D ≤ m.date := by
  obtain ⟨tail, heq, hall⟩ := gather_posts_min_date_aux mi D ia scripts initLoopState
  rw [heq] at hm
  simp only [initLoopState, List.nil_append] at hm
  exact hall m hm

/-- Witness for the C7 theorem: with `min_date = 5`, the page
`[date 10, date 3, date 7]` yields only the message with date 10 (consumption
stops at date 3), and the theorem applies to it. -/
theorem gather_posts_respects_min_date_witness :
    (⟨10, false⟩ : Msg) ∈ (gather_posts 10 (some 5) true
        [[⟨[⟨10, false⟩, ⟨3, false⟩, ⟨7, false⟩], .done⟩]] initLoopState).yielded ∧
    5 ≤ (Msg.mk 10 false).date :=
  ⟨by decide,
    gather_posts_respects_min_date 10 5 true
      [[⟨[⟨10, false⟩, ⟨3, false⟩, ⟨7, false⟩], .done⟩]] ⟨10, false⟩ (by decide)⟩

theorem exBind_ok {ε α β : Type} (a : α) (f : α → Except ε β) :
    (Except.ok a >>= f : Except ε β) = f a := rfl

theorem exBind_err {ε α β : Type} (e : ε) (f : α → Except ε β) :
    (Except.error e >>= f : Except ε β) = Except.error e := rfl

theorem exPure_eq_ok {ε α : Type} (a : α) : (pure a : Except ε α) = Except.ok a := rfl

theorem exThrow_bind {ε α β : Type} (e : ε) (f : α → Except ε β) :
    ((throw e : Except ε α) >>= f) = throw e := rfl

/--
C3 counterexample: `map_item` raises. On a flattened message whose contact
attachment carries neither known contact shape (no `contact` key and not all
five contact sub-fields), the source executes
`raise ProcessorException('Cannot find contact data; ...')` — so
`to_canonical_record` is not total on messages with missing optional
sub-fields, contact sub-fields among them.
-/
theorem map_item_raises_on_missing_contact_data :
    map_item c3msg =
      Except.error
        "ProcessorException: Cannot find contact data; Telegram datastructure may have changed" :=
  rfl

theorem threadInfo_ok (c : TValue) (h : chatOk c = true) : ∃ p, threadInfo c = Except.ok p := by
  match c, h with
  | .none_, h => exact ⟨_, rfl⟩
  | .dict fs, h =>
    simp only [chatOk, Bool.and_eq_true] at h
    obtain ⟨⟨hu, ht⟩, hid⟩ := h
    rw [Option.isSome_iff_exists] at hid
    obtain ⟨iv, hiv⟩ := hid
    simp only [threadInfo, getItem, dictGet]
    split at hu
    case _ u heq =>
      rw [heq, hiv]
      split at ht
      case _ t heqt =>
        rw [heqt]
        by_cases hut : truthy (.str u) = true
        · simp only [hut, pure_bind, exBind_ok, if_true]
          exact ⟨_, rfl⟩
        · by_cases htt : truthy (.str t) = true
          · simp only [hut, htt, pure_bind, exBind_ok, if_true, Bool.false_eq_true, if_false]
            exact ⟨_, rfl⟩
          · simp only [hut, htt, pure_bind, exBind_ok, Bool.false_eq_true, if_false]
            exact ⟨_, rfl⟩
      case _ heqt hne => exact absurd ht (by simp)
    case _ heq hne => exact absurd hu (by simp)

theorem exists_ok_bind {α β : Type} (x : Except String α) (f : α → Except String β)
    (hx : ∃ a, x = Except.ok a) (hf : ∀ a, ∃ b, f a = Except.ok b) :
    ∃ b, (x >>= f) = Except.ok b := by
  obtain ⟨a, ha⟩ := hx
  obtain ⟨b, hb⟩ := hf a
  exact ⟨b, by rw [ha, exBind_ok, hb]⟩

theorem senderInfo_ok (m : List (String × TValue)) (h : senderOk m = true) :
    ∃ p, senderInfo m = Except.ok p := by
  simp only [senderOk] at h
  unfold senderInfo
  cases hs : lookupA m "_sender" with
  | none =>
    have hsv : pyGetD m "_sender" .none_ = .none_ := by simp [pyGetD, hs]
    rw [hsv]
    exact ⟨_, rfl⟩
  | some s =>
    rw [hs] at h
    have hsv : pyGetD m "_sender" .none_ = s := by simp [pyGetD, hs]
    rw [hsv]
    by_cases hts : truthy s = true
    · simp only [hts, Bool.not_true, Bool.false_or] at h
      match s, hts, h with
      | .dict fs, hts, h =>
        simp only [Bool.and_eq_true] at h
        obtain ⟨⟨hid, hfn⟩, hln⟩ := h
        rw [Option.isSome_iff_exists] at hid
        obtain ⟨iv, hiv⟩ := hid
        refine exists_ok_bind _ _ ?_ fun user_id => ?_
        · unfold senderUserId
          rw [if_pos hts]
          simp only [getItem, dictGet, hiv]
          exact ⟨_, rfl⟩
        refine exists_ok_bind _ _ ?_ fun user_is_bot => ?_
        · unfold senderIsBot
          rw [if_pos hts]
          exact ⟨_, rfl⟩
        refine exists_ok_bind _ _ ?_ fun username => ?_
        · unfold senderUsername
          rw [if_pos hts]
          cases hu : lookupA fs "username" with
          | none =>
            simp only [pyGet, hu, Option.getD_none, pure_bind]
            exact ⟨_, rfl⟩
          | some uv =>
            simp only [pyGet, hu, Option.getD_some, pure_bind]
            by_cases htu : truthy uv = true
            · rw [if_pos htu]
              simp only [getItem, dictGet, hu]
              exact ⟨_, rfl⟩
            · rw [if_neg htu]
              exact ⟨_, rfl⟩
        refine exists_ok_bind _ _ ?_ fun fullname => ?_
        · unfold senderFirstName
          rw [if_pos hts]
          cases hf : lookupA fs "first_name" with
          | none =>
            simp only [pyGet, hf, Option.getD_none, pure_bind]
            exact ⟨_, rfl⟩
          | some fv =>
            simp only [pyGet, hf, Option.getD_some, pure_bind]
            by_cases htf : truthy fv = true
            · rw [if_pos htf]
              rw [hf] at hfn
              simp only [strIfTruthy, htf, Bool.not_true, Bool.false_or] at hfn
              match fv, hfn with
              | .str t, hfn => exact ⟨_, rfl⟩
            · rw [if_neg htf]
              exact ⟨_, rfl⟩
        refine exists_ok_bind _ _ ?_ fun fullname2 => ?_
        · unfold senderWithLastName
          rw [if_pos hts]
          cases hl : lookupA fs "last_name" with
          | none =>
            simp only [pyGet, hl, Option.getD_none, pure_bind]
            exact ⟨_, rfl⟩
          | some lv =>
            simp only [pyGet, hl, Option.getD_some, pure_bind]
            by_cases htl : truthy lv = true
            · rw [if_pos htl]
              rw [hl] at hln
              simp only [strIfTruthy, htl, Bool.not_true, Bool.false_or] at hln
              match lv, hln with
              | .str t, hln => exact ⟨_, rfl⟩
            · rw [if_neg htl]
              exact ⟨_, rfl⟩
        exact ⟨_, rfl⟩
    · simp only [Bool.not_eq_true] at hts
      simp only [senderUserId, senderIsBot, senderUsername, senderFirstName,
        senderWithLastName, hts, Bool.false_eq_true, if_false]
      exact ⟨_, rfl⟩

theorem attachmentInfo_of_no_media_type (media thread : TValue) (m : List (String × TValue))
    (h : get_media_type media = "") :
    attachmentInfo media thread m = Except.ok ("", .str "", "") := by
  unfold attachmentInfo
  rw [h]
  rfl

theorem forwardInfo_of_fwdOk (m : List (String × TValue)) (h : fwdOk m = true) :
    forwardInfo m = Except.ok (.str "", .str "", .str "") := by
  simp only [fwdOk] at h
  unfold forwardInfo
  cases hs : lookupA m "fwd_from" with
  | none =>
    have hsv : pyGetD m "fwd_from" .none_ = .none_ := by simp [pyGetD, hs]
    rw [hsv]
    rfl
  | some f =>
    rw [hs] at h
    have hsv : pyGetD m "fwd_from" .none_ = f := by simp [pyGetD, hs]
    rw [hsv]
    by_cases htf : truthy f = true
    · rw [if_pos htf]
      simp only [htf, Bool.not_true, Bool.false_or] at h
      match f, htf, h with
      | .dict fs, htf, h =>
        dsimp only at h
        simp only [pyIn, pure_bind]
        cases hfi : lookupA fs "from_id" with
        | none =>
          simp only [hfi, Option.isSome_none, Bool.false_eq_true, if_false]
          rfl
        | some fv =>
          rw [hfi] at h
          simp only [hfi, Option.isSome_some, if_true, getItem, dictGet, pure_bind]
          match fv, h with
          | .int n, h => rfl
    · rw [if_neg htf]
      rfl

theorem pyNum_ok_of_numOrFloat (v : TValue) (h : numOrFloat v = true) :
    ∃ n, pyNum v = Except.ok n := by
  match v, h with
  | .int n, h => exact ⟨n, rfl⟩
  | .float x, h => exact ⟨x, rfl⟩

theorem pyInt_ok_of_numOrFloat (v : TValue) (h : numOrFloat v = true) :
    ∃ n, pyInt v = Except.ok n := by
  match v, h with
  | .int n, h => exact ⟨n, rfl⟩
  | .float x, h => exact ⟨x, rfl⟩

theorem formatOptTimestamp_ok_of_editOk (v : TValue) (h : editOk v = true) :
    ∃ x, formatOptTimestamp v = Except.ok x := by
  unfold formatOptTimestamp
  by_cases htv : truthy v = true
  · simp only [editOk, htv, Bool.not_true, Bool.false_or] at h
    obtain ⟨n, hn⟩ := pyNum_ok_of_numOrFloat v h
    rw [if_pos htv]
    simp only [hn, exBind_ok]
    exact ⟨_, rfl⟩
  · rw [if_neg htv]
    exact ⟨_, rfl⟩

theorem intOptTimestamp_ok_of_editOk (v : TValue) (h : editOk v = true) :
    ∃ x, intOptTimestamp v = Except.ok x := by
  unfold intOptTimestamp
  by_cases htv : truthy v = true
  · simp only [editOk, htv, Bool.not_true, Bool.false_or] at h
    obtain ⟨n, hn⟩ := pyInt_ok_of_numOrFloat v h
    rw [if_pos htv]
    simp only [hn, exBind_ok]
    exact ⟨_, rfl⟩
  · rw [if_neg htv]
    exact ⟨_, rfl⟩

/--
C3 amended: `map_item` is total and emits every required field once the
top-level fields it subscripts unconditionally are present and well-shaped:
for any flattened message with `_chat` (possibly `None` — then the
`error-no-chat`/`error-no-id` sentinels are used), `media` with no recognized
attachment tag, `id`, `message`, `views`, numeric `date` and falsy-or-numeric
`edit_date`, and whose optional `_sender`/`fwd_from` sub-structures are
absent, falsy, or well-shaped, `map_item` returns a record whose keys are
exactly the source's output fields, which include every required field of the
Normalized Record. (The original claim is refuted by the counterexample: a
contact attachment without contact data raises `ProcessorException`, and bare
subscripts such as `message["views"]` raise `KeyError` when absent.)
-/
theorem map_item_total_on_wellformed (msg : TValue) (h : wellFormedMsg msg = true) :
    ∃ r, map_item msg = Except.ok r ∧ r.map Prod.fst = mapItemFieldNames ∧
      ∀ f ∈ requiredFieldNames, f ∈ r.map Prod.fst := by
  match msg, h with
  | .dict m, h =>
    simp only [wellFormedMsg, Bool.and_eq_true] at h
    obtain ⟨⟨⟨⟨⟨⟨⟨⟨hchat, hsend⟩, hmedia⟩, hfwd⟩, hid⟩, hbody⟩, hviews⟩, hdate⟩, hedit⟩ := h
    cases heqc : lookupA m "_chat" with
    | none => rw [heqc] at hchat; exact absurd hchat (by simp)
    | some c =>
    rw [heqc] at hchat
    cases heqm : lookupA m "media" with
    | none => rw [heqm] at hmedia; exact absurd hmedia (by simp)
    | some mv =>
    rw [heqm] at hmedia
    have hmt : get_media_type mv = "" := of_decide_eq_true hmedia
    cases heqd : lookupA m "date" with
    | none => rw [heqd] at hdate; exact absurd hdate (by simp)
    | some dv =>
    rw [heqd] at hdate
    cases heqe : lookupA m "edit_date" with
    | none => rw [heqe] at hedit; exact absurd hedit (by simp)
    | some ev =>
    rw [heqe] at hedit
    rw [Option.isSome_iff_exists] at hid hbody hviews
    obtain ⟨midv, hmid⟩ := hid
    obtain ⟨bodyv, hbody2⟩ := hbody
    obtain ⟨viewsv, hviews2⟩ := hviews
    obtain ⟨ti, hti⟩ := threadInfo_ok c hchat
    obtain ⟨si, hsi⟩ := senderInfo_ok m hsend
    have hai := attachmentInfo_of_no_media_type mv ti.1 m hmt
    have hfi := forwardInfo_of_fwdOk m hfwd
    obtain ⟨dn, hdn⟩ := pyNum_ok_of_numOrFloat dv hdate
    obtain ⟨di, hdi⟩ := pyInt_ok_of_numOrFloat dv hdate
    obtain ⟨tse, htse⟩ := formatOptTimestamp_ok_of_editOk ev hedit
    obtain ⟨ue, hue⟩ := intOptTimestamp_ok_of_editOk ev hedit
    have htsfwd :
        formatOptTimestamp
          (((TValue.str "", TValue.str "", TValue.str "")) :
            TValue × TValue × TValue).1 = Except.ok (TValue.str "") := rfl
    suffices hms : ∃ r, map_item (.dict m) = Except.ok r ∧
        r.map Prod.fst = mapItemFieldNames by
      obtain ⟨r, h1, h2⟩ := hms
      refine ⟨r, h1, h2, ?_⟩
      rw [h2]
      decide
    apply Exists.intro
    constructor
    · simp only [map_item, mapItemDict, dictGet, heqc, heqm, heqd, heqe, hmid,
        hbody2, hviews2, hti, hsi, hai, hfi, hdn, hdi, htse, hue, htsfwd,
        pure_bind, exBind_ok]
      exact rfl
    · rfl

/-- Witness for the amended C3 theorem at the concrete message `c3ok`. -/
theorem map_item_total_on_wellformed_witness :
    wellFormedMsg c3ok = true ∧
    ∃ r, map_item c3ok = Except.ok r ∧ r.map Prod.fst = mapItemFieldNames ∧
      ∀ f ∈ requiredFieldNames, f ∈ r.map Prod.fst :=
  ⟨rfl, map_item_total_on_wellformed c3ok rfl⟩

theorem markerReady_channelOf (r : TValue) (h : markerReady r = true) :
    ∃ n, channelOf r = Except.ok (.int n) := by
  match r, h with
  | .dict fs, h =>
    simp only [markerReady, Bool.and_eq_true] at h
    obtain ⟨hc, hid⟩ := h
    cases hic : lookupA fs "_input_chat" with
    | none => rw [hic] at hc; simp at hc
    | some ic =>
      rw [hic] at hc
      match ic, hc with
      | .dict cfs, hc =>
        dsimp only at hc
        cases hcid : lookupA cfs "channel_id" with
        | none => rw [hcid] at hc; simp at hc
        | some cv =>
          rw [hcid] at hc
          match cv, hc with
          | .int n, hc =>
            refine ⟨n, ?_⟩
            simp only [channelOf, lookupPy, hic, hcid, exBind_ok, pure_bind, exPure_eq_ok]

theorem markerBenign_channelOf (r : TValue) (h : markerBenign r = true) :
    (∃ n, channelOf r = Except.ok (.int n)) ∨
    (∃ k, channelOf r = Except.error (.keyError k)) := by
  match r, h with
  | .dict fs, h =>
    dsimp only [markerBenign] at h
    cases hic : lookupA fs "_input_chat" with
    | none =>
      right
      refine ⟨"_input_chat", ?_⟩
      simp only [channelOf, lookupPy, hic, exBind_err, exThrow_bind]
      rfl
    | some ic =>
      rw [hic] at h
      match ic, h with
      | .dict cfs, h =>
        dsimp only at h
        cases hcid : lookupA cfs "channel_id" with
        | none =>
          right
          refine ⟨"channel_id", ?_⟩
          simp only [channelOf, lookupPy, hic, hcid, exBind_ok, pure_bind, exPure_eq_ok]
          rfl
        | some cv =>
          rw [hcid] at h
          match cv, h with
          | .int n, h =>
            left
            refine ⟨n, ?_⟩
            simp only [channelOf, lookupPy, hic, hcid, exBind_ok, pure_bind, exPure_eq_ok]

theorem mapM_channelOf_ok_of_ready (ps : List TValue)
    (h : ∀ r ∈ ps, markerReady r = true) :
    ∃ cs, ps.mapM channelOf = Except.ok cs ∧ ∀ c ∈ cs, ∃ n, c = TValue.int n := by
  induction ps with
  | nil => exact ⟨[], rfl, by simp⟩
  | cons r rs ih =>
    obtain ⟨n, hn⟩ := markerReady_channelOf r (h r (by simp))
    obtain ⟨cs, hcs, hint⟩ := ih (fun x hx => h x (by simp [hx]))
    refine ⟨.int n :: cs, ?_, ?_⟩
    · rw [List.mapM_cons, hn, exBind_ok, hcs, exBind_ok]
      rfl
    · intro c hc
      rcases List.mem_cons.mp hc with rfl | hc2
      · exact ⟨n, rfl⟩
      · exact hint c hc2

theorem foldlM_ok_exc {ε α β : Type} (f : β → α → Except ε β) (l : List α)
    (h : ∀ (b : β) (a : α), a ∈ l → ∃ b2, f b a = Except.ok b2) :
    ∀ acc, ∃ out, l.foldlM f acc = Except.ok out := by
  induction l with
  | nil => intro acc; exact ⟨acc, rfl⟩
  | cons a l ih =>
    intro acc
    obtain ⟨b2, hb2⟩ := h acc a (by simp)
    obtain ⟨out, hout⟩ := ih (fun b x hx => h b x (by simp [hx])) b2
    exact ⟨out, by rw [List.foldlM_cons, hb2, exBind_ok, hout]⟩

theorem pySetFold_ok (cs : List TValue) (hint : ∀ c ∈ cs, ∃ n, c = TValue.int n) :
    ∀ (acc : List TValue), (∀ c ∈ acc, ∃ n, c = TValue.int n) →
    ∃ outs, cs.foldlM pySetInsert acc = Except.ok outs ∧
      ∀ c ∈ outs, ∃ n, c = TValue.int n := by
  induction cs with
  | nil => intro acc hacc; exact ⟨acc, rfl, hacc⟩
  | cons c cs ih =>
    intro acc hacc
    obtain ⟨n, hn⟩ := hint c (by simp)
    subst hn
    have hstep : pySetInsert acc (.int n) =
        Except.ok (if acc.any (fun x => pyEqKey x (.int n)) then acc
                   else acc ++ [TValue.int n]) := rfl
    have hacc2 : ∀ x ∈ (if acc.any (fun x => pyEqKey x (.int n)) then acc
        else acc ++ [TValue.int n]), ∃ m2, x = TValue.int m2 := by
      intro x hx
      by_cases hany : acc.any (fun x => pyEqKey x (.int n)) = true
      · rw [if_pos hany] at hx
        exact hacc x hx
      · rw [if_neg hany] at hx
        rcases List.mem_append.mp hx with hx2 | hx2
        · exact hacc x hx2
        · simp only [List.mem_singleton] at hx2
          exact ⟨n, hx2⟩
    obtain ⟨outs, houts, hint2⟩ := ih (fun x hx => hint x (by simp [hx])) _ hacc2
    exact ⟨outs, by rw [List.foldlM_cons, hstep, exBind_ok, houts], hint2⟩

theorem lookupA_ne_nil {fs : List (String × TValue)} {k : String} {v : TValue}
    (h : lookupA fs k = some v) : fs ≠ [] := by
  intro hnil
  subst hnil
  simp [lookupA] at h

theorem markerStep_ok (posts : List TValue)
    (hready : ∀ r ∈ posts, markerReady r = true) (acc : Markers) (channel : TValue)
    (hint : ∃ n, channel = TValue.int n) :
    ∃ out, markerStep posts acc channel = Except.ok out := by
  unfold markerStep
  cases hf : posts.find? (fun post =>
      match channelOf post with
      | .ok c => pyEqKey c channel
      | .error _ => false) with
  | none => exact ⟨acc, rfl⟩
  | some record =>
    have hmem := List.mem_of_find?_eq_some hf
    have hr := hready record hmem
    match record, hr with
    | .dict fs, hr =>
      simp only [markerReady, Bool.and_eq_true] at hr
      obtain ⟨hic, hid⟩ := hr
      dsimp only
      have htr : truthy (.dict fs) = true := by
        cases hic2 : lookupA fs "_input_chat" with
        | none => rw [hic2] at hic; simp at hic
        | some ic =>
          have : fs ≠ [] := lookupA_ne_nil hic2
          simp [truthy, List.isEmpty_eq_true, this]
      rw [if_pos htr]
      rw [Option.isSome_iff_exists] at hid
      obtain ⟨mid, hmid⟩ := hid
      obtain ⟨n, hn⟩ := hint
      subst hn
      simp only [lookupPy, hmid, exBind_ok, getPeerId, pure_bind]
      exact ⟨_, rfl⟩

theorem computeMarkers_ok_of_ready (ps : List TValue) (f0 : Markers)
    (h : ∀ r ∈ ps, markerReady r = true) : ∃ mk, computeMarkers ps f0 = Except.ok mk := by
  obtain ⟨cs, hcs, hallint⟩ := mapM_channelOf_ok_of_ready ps h
  obtain ⟨chs, hchs, hchsint⟩ := pySetFold_ok cs hallint [] (by simp)
  have hch : channelsOf ps = Except.ok chs := by
    simp only [channelsOf, hcs, exBind_ok, hchs]
  obtain ⟨mk, hmk⟩ :=
    foldlM_ok_exc (markerStep ps) chs
      (fun b a ha => markerStep_ok ps h b a (hchsint a ha)) f0
  exact ⟨mk, by simp only [computeMarkers, hch, exBind_ok, hmk]⟩

theorem update_latest_markers_ok_of_ready (posts : List TValue) (mk : Markers)
    (h : ∀ r ∈ posts, markerReady r = true) :
    ∃ mk2, update_latest_markers posts mk = (posts.reverse, Except.ok mk2) := by
  obtain ⟨mk2, hmk⟩ := computeMarkers_ok_of_ready posts.reverse
    (if mk.isEmpty then [] else mk) (fun r hr => h r (List.mem_reverse.mp hr))
  exact ⟨mk2, by simp only [update_latest_markers, hmk]⟩

theorem mapM_channelOf_keyError (ps : List TValue)
    (hb : ∀ r ∈ ps, markerBenign r = true)
    (hm : ∃ r ∈ ps, channelKeyMissing r = true) :
    ∃ k, ps.mapM channelOf = Except.error (.keyError k) := by
  induction ps with
  | nil => simp at hm
  | cons r rs ih =>
    rcases markerBenign_channelOf r (hb r (by simp)) with ⟨n, hn⟩ | ⟨k, hk⟩
    · have hm2 : ∃ x ∈ rs, channelKeyMissing x = true := by
        rcases hm with ⟨x, hx, hkm⟩
        rcases List.mem_cons.mp hx with rfl | hx2
        · rw [channelKeyMissing, hn] at hkm
          exact absurd hkm (by simp)
        · exact ⟨x, hx2, hkm⟩
      obtain ⟨k, hk⟩ := ih (fun x hx => hb x (by simp [hx])) hm2
      refine ⟨k, ?_⟩
      rw [List.mapM_cons, hn, exBind_ok, hk]
      rfl
    · refine ⟨k, ?_⟩
      rw [List.mapM_cons, hk]
      rfl

/--
C10 amended: the checkpoint-marker update is all-or-nothing per flush for the
channel path — if any record in the batch lacks the `_input_chat` mapping or
its `channel_id` key (and no record is malformed enough to raise an uncaught
`TypeError`), the `KeyError` raised by the channel-set comprehension is caught
and the persisted Checkpoint Marker Set is left entirely unchanged: no
channel's marker is advanced, not even for well-formed records. A record
lacking only the `id` key, however, rolls the update back only when it is the
selected (most recent) record of its channel; otherwise the flush advances
markers normally — see the counterexample.
-/
theorem update_latest_markers_unchanged_on_missing_channel (posts : List TValue)
    (mk : Markers) (hb : ∀ r ∈ posts, markerBenign r = true)
    (hm : ∃ r ∈ posts, channelKeyMissing r = true) :
    update_latest_markers posts mk = (posts.reverse, Except.ok mk) := by
  obtain ⟨k, hk⟩ := mapM_channelOf_keyError posts.reverse
    (fun r hr => hb r (List.mem_reverse.mp hr))
    (by rcases hm with ⟨x, hx, hkm⟩; exact ⟨x, List.mem_reverse.mpr hx, hkm⟩)
  have hcm : computeMarkers posts.reverse (if mk.isEmpty then [] else mk) =
      Except.error (.keyError k) := by
    simp only [computeMarkers, channelsOf, hk, exBind_err]
  simp only [update_latest_markers, hcm]

/-- Witness for the amended C10 theorem: a batch of one well-formed record and
one record with no `_input_chat` key leaves the persisted markers unchanged. -/
theorem update_latest_markers_unchanged_witness :
    (∀ r ∈ [c10good, TValue.dict [("id", TValue.int 3)]], markerBenign r = true) ∧
    (∃ r ∈ [c10good, TValue.dict [("id", TValue.int 3)]], channelKeyMissing r = true) ∧
    update_latest_markers [c10good, TValue.dict [("id", TValue.int 3)]] [("9", TValue.int 1)] =
      ([TValue.dict [("id", TValue.int 3)], c10good].reverse.reverse,
        Except.ok [("9", TValue.int 1)]) :=
  ⟨by decide, by decide,
    update_latest_markers_unchanged_on_missing_channel _ _ (by decide) (by decide)⟩

/--
C10 counterexample: the claim's `id` clause fails. The batch
`[c10bad, c10good]` — where `c10bad` lacks the `id` key but shares channel 7
with the well-formed `c10good` — does advance the persisted markers: after the
in-place reversal, the record selected for channel 7 is `c10good`, so no
`KeyError` is raised and the marker set becomes `7 ↦ 42`, not the unchanged
empty set the claim requires when a record lacks `id`.
-/
theorem update_latest_markers_advances_despite_missing_id :
    (match c10bad with | TValue.dict fs => lookupA fs "id" | _ => some .none_) = none ∧
    (update_latest_markers [c10bad, c10good] []).2 = Except.ok [("7", TValue.int 42)] ∧
    Except.ok ([("7", TValue.int 42)] : Markers) ≠
      (Except.ok ([] : Markers) : Except String Markers) := by
  refine ⟨rfl, rfl, ?_⟩
  intro h
  injection h with h
  exact List.noConfusion h

theorem continuous_tick_flush_spec (max_items : Nat) (is_eod : Bool) (st : ContState)
    (hpos : 0 < max_items) (hlen : max_items ≤ st.continuous_posts.length)
    (hready : ∀ r ∈ st.continuous_posts, markerReady r = true) :
    ∃ mk2, continuous_tick ".ndjson" max_items is_eod .none false st =
      Except.ok ({ continuous_posts := [],
                   final_file_posts := st.final_file_posts ++ st.continuous_posts.reverse,
                   markers := mk2,
                   subfiles := st.subfiles ++ [st.continuous_posts],
                   zipped := st.zipped }, .keepListening) := by
  obtain ⟨mk2, hmk⟩ := update_latest_markers_ok_of_ready st.continuous_posts st.markers hready
  have hne : st.continuous_posts.isEmpty = false := by
    cases hcp : st.continuous_posts with
    | nil =>
      rw [hcp] at hlen
      simp at hlen
      omega
    | cons _ _ => rfl
  have hsf : save_files ".ndjson" st.continuous_posts st.markers st.subfiles =
      (st.continuous_posts.reverse, st.subfiles ++ [st.continuous_posts], Except.ok mk2) := by
    unfold save_files
    rw [hne, hmk]
    simp
  have hfl : flushResult ".ndjson" st =
      Except.ok { continuous_posts := [],
                  final_file_posts := st.final_file_posts ++ st.continuous_posts.reverse,
                  markers := mk2,
                  subfiles := st.subfiles ++ [st.continuous_posts],
                  zipped := st.zipped } := by
    unfold flushResult
    rw [hsf]
  refine ⟨mk2, ?_⟩
  unfold continuous_tick
  rw [if_pos (Or.inl hlen), hfl]
  rfl

/--
C8: when the accumulator of the continuous collection loop holds at least
`max_items_per_entity` records (all marker-well-formed, no interruption
pending), the tick flushes them through the `save_files` subfile path — the
batch is written as a new subfile — and then clears the accumulator, so the
accumulator is empty before the next tick and the loop keeps listening.
-/
theorem continuous_tick_flushes_and_clears (max_items : Nat) (is_eod : Bool)
    (st : ContState) (hpos : 0 < max_items)
    (hlen : max_items ≤ st.continuous_posts.length)
    (hready : ∀ r ∈ st.continuous_posts, markerReady r = true) :
    ∃ st2 mk2, continuous_tick ".ndjson" max_items is_eod .none false st =
        Except.ok (st2, .keepListening) ∧
      st2.continuous_posts = [] ∧
      st2.subfiles = st.subfiles ++ [st.continuous_posts] ∧
      st2.markers = mk2 := by
  obtain ⟨mk2, hmk⟩ := continuous_tick_flush_spec max_items is_eod st hpos hlen hready
  exact ⟨_, mk2, hmk, rfl, rfl, rfl⟩

/-- Witness for the C8 theorem at the concrete state `c8state` with
`max_items = 2`. -/
theorem continuous_tick_flushes_and_clears_witness :
    (0 < 2 ∧ 2 ≤ c8state.continuous_posts.length ∧
      ∀ r ∈ c8state.continuous_posts, markerReady r = true) ∧
    ∃ st2 mk2, continuous_tick ".ndjson" 2 false .none false c8state =
        Except.ok (st2, .keepListening) ∧
      st2.continuous_posts = [] ∧
      st2.subfiles = c8state.subfiles ++ [c8state.continuous_posts] ∧
      st2.markers = mk2 :=
  ⟨⟨by decide, by decide, by decide⟩,
    continuous_tick_flushes_and_clears 2 false c8state (by decide) (by decide) (by decide)⟩

/--
C9: `save_files` mutates its `items` argument in place — `update_latest_markers`
reverses the list it was given before anything else, so after every call the
caller's batch is in reversed order (first conjunct, which holds for every
input, exceptions included). In the continuous collection loop the flushed
batch is appended to the cumulative returned list only after this reversal,
while the subfile on disk receives the batch in its pre-reversal arrival
order (second conjunct) — so the returned list concatenates reversed batches
rather than preserving arrival order.
-/
theorem save_files_reverses_caller_batch :
    (∀ (posts : List TValue) (mk : Markers),
      (update_latest_markers posts mk).1 = posts.reverse) ∧
    (∀ (max_items : Nat) (is_eod : Bool) (st : ContState),
      0 < max_items → max_items ≤ st.continuous_posts.length →
      (∀ r ∈ st.continuous_posts, markerReady r = true) →
      ∃ st2, continuous_tick ".ndjson" max_items is_eod .none false st =
          Except.ok (st2, .keepListening) ∧
        st2.final_file_posts = st.final_file_posts ++ st.continuous_posts.reverse ∧
        st2.subfiles = st.subfiles ++ [st.continuous_posts]) := by
  constructor
  · intro posts mk
    rfl
  · intro mi eod st h1 h2 h3
    obtain ⟨mk2, hmk⟩ := continuous_tick_flush_spec mi eod st h1 h2 h3
    exact ⟨_, hmk, rfl, rfl⟩

/-- Witness for the C9 theorem: the reversal fact applied to a two-record
batch whose reversal differs from it, and the flush fact at `c8state`. -/
theorem save_files_reverses_caller_batch_witness :
    (update_latest_markers [c10bad, c10good] []).1 = [c10bad, c10good].reverse ∧
    ([c10bad, c10good].reverse = [c10good, c10bad]) ∧
    ∃ st2, continuous_tick ".ndjson" 2 false .none false c8state =
        Except.ok (st2, .keepListening) ∧
      st2.final_file_posts = c8state.final_file_posts ++ c8state.continuous_posts.reverse ∧
      st2.subfiles = c8state.subfiles ++ [c8state.continuous_posts] :=
  ⟨save_files_reverses_caller_batch.1 [c10bad, c10good] [], rfl,
    save_files_reverses_caller_batch.2 2 false c8state (by decide) (by decide) (by decide)⟩

end Telegram
